import Mathlib

/-!
Verification of the subgraph-to-hyperindex query converter.

This file is a shallow embedding, in Lean 4, of `src/conversion.rs`: strings
are modelled as `List Char`, Rust `HashMap<String, String>` as an association
list with replace-on-insert semantics, `HashSet<String>` as a duplicate-free
`List`, and `Result<T, ConversionError>` as `Except ConversionError T`.
Iteration order of Rust hash maps is unspecified; the embedding determinizes
it to insertion order.  Each definition mirrors the Rust function of the same
name; theorems about the spec's claims follow at the end of the file.
-/

set_option linter.unusedVariables false

abbrev Str := List Char

/-- The error enumeration `ConversionError` of the source. -/
inductive ConversionError where
  | invalidQueryFormat : ConversionError
  | missingField (name : Str) : ConversionError
  | unsupportedFilter (path : Str) : ConversionError
  | complexMetaQuery : ConversionError
deriving DecidableEq

instance {ε α : Type} [DecidableEq ε] [DecidableEq α] : DecidableEq (Except ε α) := fun x y =>
  match x, y with
  | .ok a, .ok b =>
    if h : a = b then isTrue (congrArg _ h) else isFalse (fun hc => h (Except.ok.inj hc))
  | .error a, .error b =>
    if h : a = b then isTrue (congrArg _ h) else isFalse (fun hc => h (Except.error.inj hc))
  | .ok _, .error _ => isFalse (fun hc => Except.noConfusion hc)
  | .error _, .ok _ => isFalse (fun hc => Except.noConfusion hc)

/-- Argument maps: Rust `HashMap<String, String>` determinized to an
association list (insert replaces in place, fresh keys append). -/
abbrev PMap := List (Str × Str)

/- ------------------------------------------------------------------ -/
/- Character and string helpers mirroring Rust `str` methods.          -/
/- ------------------------------------------------------------------ -/

def braceOpenC : Char := '\x7b'

def braceCloseC : Char := '\x7d'

def quoteC : Char := '\x22'

def percentC : Char := '%'

def dollarC : Char := '$'

def nlC : Char := '\n'

def isWs (c : Char) : Bool := c.isWhitespace

/-- Rust `str::trim_start`. -/
def trimStart (s : Str) : Str := s.dropWhile isWs

/-- Rust `str::trim_end`. -/
def trimEnd (s : Str) : Str := (s.reverse.dropWhile isWs).reverse

/-- Rust `str::trim`. -/
def trimWs (s : Str) : Str := trimEnd (trimStart s)

/-- Rust `str::trim_start_matches(c)` (strips every leading `c`). -/
def trimStartMatches (c : Char) (s : Str) : Str := s.dropWhile (fun x => x = c)

/-- Rust `str::trim_end_matches(c)` (strips every trailing `c`). -/
def trimEndMatches (c : Char) (s : Str) : Str := (s.reverse.dropWhile (fun x => x = c)).reverse

/-- Rust `str::trim_matches(c)` (strips every leading and trailing `c`). -/
def trimMatchesChar (c : Char) (s : Str) : Str := trimEndMatches c (trimStartMatches c s)

/-- Rust `str::find(sub)`: index of the first occurrence of a substring. -/
def findSubIdx (needle : Str) : Str → Option Nat
  | [] => if needle = [] then some 0 else none
  | c :: t => if needle <+: (c :: t) then some 0 else (findSubIdx needle t).map (· + 1)

/-- Rust `str::contains(sub)`. -/
def containsSub (hay needle : Str) : Bool := (findSubIdx needle hay).isSome

/-- Rust `str::rfind(c)`: index of the last occurrence of a character. -/
def rfindIdx (c : Char) (s : Str) : Option Nat :=
  match List.findIdx? (fun x => decide (x = c)) s.reverse with
  | some i => some (s.length - 1 - i)
  | none => none

/-- Map operations (Rust `HashMap` determinized). -/
def containsKeyP (m : PMap) (k : Str) : Bool := m.any (fun kv => decide (kv.1 = k))

def lookupP (m : PMap) (k : Str) : Option Str :=
  (m.find? (fun kv => decide (kv.1 = k))).map Prod.snd

def insertP (m : PMap) (k v : Str) : PMap :=
  if containsKeyP m k then m.map (fun kv => if kv.1 = k then (k, v) else kv) else m ++ [(k, v)]

def insertAllP (m l : PMap) : PMap := l.foldl (fun acc kv => insertP acc kv.1 kv.2) m

def removeKeyP (m : PMap) (k : Str) : PMap := m.filter (fun kv => decide (kv.1 ≠ k))

/-- Set insert (Rust `HashSet`, determinized to a duplicate-free list). -/
def insertS (s : List Str) (x : Str) : List Str := if x ∈ s then s else s ++ [x]

/- ------------------------------------------------------------------ -/
/- String constants of the source.                                     -/
/- ------------------------------------------------------------------ -/

def kWhere : Str := "where".data

def kChainId : Str := "chainId".data

def kFirst : Str := "first".data

def kSkip : Str := "skip".data

def kOrderBy : Str := "orderBy".data

def kOrderDirection : Str := "orderDirection".data

def kId : Str := "id".data

def sufNotStartsWithNocase : Str := "_not_starts_with_nocase".data

def sufNotEndsWithNocase : Str := "_not_ends_with_nocase".data

def sufNotContainsNocase : Str := "_not_contains_nocase".data

def sufStartsWithNocase : Str := "_starts_with_nocase".data

def sufEndsWithNocase : Str := "_ends_with_nocase".data

def sufContainsNocase : Str := "_contains_nocase".data

def sufNotStartsWith : Str := "_not_starts_with".data

def sufNotEndsWith : Str := "_not_ends_with".data

def sufNotContains : Str := "_not_contains".data

def sufStartsWith : Str := "_starts_with".data

def sufEndsWith : Str := "_ends_with".data

def sufContains : Str := "_contains".data

def sufNotIn : Str := "_not_in".data

def sufGte : Str := "_gte".data

def sufLte : Str := "_lte".data

def sufNot : Str := "_not".data

def sufGt : Str := "_gt".data

def sufLt : Str := "_lt".data

def sufIn : Str := "_in".data

def sufContainsAny : Str := "_containsAny".data

def sufContainsAll : Str := "_containsAll".data

def opNin : Str := "_nin".data

def opGte : Str := "_gte".data

def opLte : Str := "_lte".data

def opNeq : Str := "_neq".data

def opGt : Str := "_gt".data

def opLt : Str := "_lt".data

def opIn : Str := "_in".data

def opEq : Str := "_eq".data

/-- `": {"` -/
def kColonOpenBrace : Str := ": \x7b".data

/-- `": "` -/
def kColonSpace : Str := ": ".data

/-- `": {_ilike: ""` -/
def kIlikeOpen : Str := ": \x7b_ilike: \x22".data

/-- `""}"` -/
def kIlikeClose : Str := "\x22\x7d".data

/-- `"_not: {"` -/
def kNotOpen : Str := "_not: \x7b".data

/-- `": {id: {_eq: "` -/
def kIdRefOpen : Str := ": \x7bid: \x7b_eq: ".data

/-- `"}}"` -/
def kIdRefClose : Str := "\x7d\x7d".data

/-- `", "` -/
def kCommaSpace : Str := ", ".data

/- ------------------------------------------------------------------ -/
/- Output format fragments (the `format!` templates of the source).    -/
/- ------------------------------------------------------------------ -/

/-- `format!("{}: {{_ilike: \"{}\"}}", field, pat)` where `pat` already
carries its percent signs. -/
def fmtIlike (field pat : Str) : Str := field ++ kIlikeOpen ++ pat ++ kIlikeClose

/-- `format!("_not: {{{}: {{_ilike: \"{}\"}}}}", field, pat)`. -/
def fmtNotIlike (field pat : Str) : Str := kNotOpen ++ fmtIlike field pat ++ [braceCloseC]

/-- `format!("{}: {{<op>: {}}}", field, value)`. -/
def fmtOp (field op value : Str) : Str :=
  field ++ kColonOpenBrace ++ op ++ kColonSpace ++ value ++ [braceCloseC]

/-- `format!("{}: {{_eq: {}}}", key, value)`. -/
def fmtEq (key value : Str) : Str := fmtOp key opEq value

/-- `format!("{}: {{id: {{_eq: {}}}}}", key, value)`. -/
def fmtIdRef (key value : Str) : Str := key ++ kIdRefOpen ++ value ++ kIdRefClose

/- ------------------------------------------------------------------ -/
/- The filter compiler: `convert_basic_filter_to_hasura_condition`.    -/
/- ------------------------------------------------------------------ -/

/-- Rust `is_simple_scalar` test inside the no-suffix branch. -/
def is_simple_scalar (value : Str) : Bool :=
  let trimmed_value := trimWs value
  !(trimmed_value.head? = some braceOpenC) && !(trimmed_value.head? = some ('[' : Char))
    && !((trimStart trimmed_value).head? = some dollarC)

/-- `convert_basic_filter_to_hasura_condition` from the source: the operator
suffix cascade (checked in the source's order) followed by the
nested-entity-reference heuristic for suffix-free keys. -/
def convert_basic_filter_to_hasura_condition (key value : Str)
    (nested_entity_fields regular_fields : List Str) : Except ConversionError Str :=
  if key = kWhere then .ok []
  else if sufNotStartsWithNocase <:+ key then
    .ok (fmtNotIlike (key.take (key.length - sufNotStartsWithNocase.length))
      (trimMatchesChar quoteC value ++ [percentC]))
  else if sufNotEndsWithNocase <:+ key then
    .ok (fmtNotIlike (key.take (key.length - sufNotEndsWithNocase.length))
      ([percentC] ++ trimMatchesChar quoteC value))
  else if sufNotContainsNocase <:+ key then
    .ok (fmtNotIlike (key.take (key.length - sufNotContainsNocase.length))
      ([percentC] ++ trimMatchesChar quoteC value ++ [percentC]))
  else if sufStartsWithNocase <:+ key then
    .ok (fmtIlike (key.take (key.length - sufStartsWithNocase.length))
      (trimMatchesChar quoteC value ++ [percentC]))
  else if sufEndsWithNocase <:+ key then
    .ok (fmtIlike (key.take (key.length - sufEndsWithNocase.length))
      ([percentC] ++ trimMatchesChar quoteC value))
  else if sufContainsNocase <:+ key then
    .ok (fmtIlike (key.take (key.length - sufContainsNocase.length))
      ([percentC] ++ trimMatchesChar quoteC value ++ [percentC]))
  else if sufNotStartsWith <:+ key then
    .ok (fmtNotIlike (key.take (key.length - sufNotStartsWith.length))
      (trimMatchesChar quoteC value ++ [percentC]))
  else if sufNotEndsWith <:+ key then
    .ok (fmtNotIlike (key.take (key.length - sufNotEndsWith.length))
      ([percentC] ++ trimMatchesChar quoteC value))
  else if sufNotContains <:+ key then
    .ok (fmtNotIlike (key.take (key.length - sufNotContains.length))
      ([percentC] ++ trimMatchesChar quoteC value ++ [percentC]))
  else if sufStartsWith <:+ key then
    .ok (fmtIlike (key.take (key.length - sufStartsWith.length))
      (trimMatchesChar quoteC value ++ [percentC]))
  else if sufEndsWith <:+ key then
    .ok (fmtIlike (key.take (key.length - sufEndsWith.length))
      ([percentC] ++ trimMatchesChar quoteC value))
  else if sufContains <:+ key then
    .ok (fmtIlike (key.take (key.length - sufContains.length))
      ([percentC] ++ trimMatchesChar quoteC value ++ [percentC]))
  else if sufNotIn <:+ key then
    .ok (fmtOp (key.take (key.length - sufNotIn.length)) opNin value)
  else if sufGte <:+ key then
    .ok (fmtOp (key.take (key.length - sufGte.length)) opGte value)
  else if sufLte <:+ key then
    .ok (fmtOp (key.take (key.length - sufLte.length)) opLte value)
  else if sufNot <:+ key then
    .ok (fmtOp (key.take (key.length - sufNot.length)) opNeq value)
  else if sufGt <:+ key then
    .ok (fmtOp (key.take (key.length - sufGt.length)) opGt value)
  else if sufLt <:+ key then
    .ok (fmtOp (key.take (key.length - sufLt.length)) opLt value)
  else if sufIn <:+ key then
    .ok (fmtOp (key.take (key.length - sufIn.length)) opIn value)
  else if sufContainsAny <:+ key ∨ sufContainsAll <:+ key then
    .error (.unsupportedFilter key)
  else if key = kChainId then .ok (fmtEq key value)
  else if is_simple_scalar value
      ∧ (key ∈ nested_entity_fields
        ∨ (¬ (nested_entity_fields = [] ∧ regular_fields = [])
            ∧ key ∉ regular_fields ∧ key ∉ nested_entity_fields)) then
    .ok (fmtIdRef key value)
  else .ok (fmtEq key value)

/- ------------------------------------------------------------------ -/
/- Spec-side suffix table (for claim C1).                              -/
/- ------------------------------------------------------------------ -/

/-- Modelled from the spec's suffix table in §4.6, ordered longest suffix
first.  Each handler receives the full path, the path with the suffix
removed, and the raw value. -/
def specSuffixTable : List (Str × (Str → Str → Str → Except ConversionError Str)) :=
  [ (sufNotStartsWithNocase, fun _ f v =>
      .ok (fmtNotIlike f (trimMatchesChar quoteC v ++ [percentC]))),
    (sufNotEndsWithNocase, fun _ f v =>
      .ok (fmtNotIlike f ([percentC] ++ trimMatchesChar quoteC v))),
    (sufNotContainsNocase, fun _ f v =>
      .ok (fmtNotIlike f ([percentC] ++ trimMatchesChar quoteC v ++ [percentC]))),
    (sufStartsWithNocase, fun _ f v =>
      .ok (fmtIlike f (trimMatchesChar quoteC v ++ [percentC]))),
    (sufEndsWithNocase, fun _ f v =>
      .ok (fmtIlike f ([percentC] ++ trimMatchesChar quoteC v))),
    (sufContainsNocase, fun _ f v =>
      .ok (fmtIlike f ([percentC] ++ trimMatchesChar quoteC v ++ [percentC]))),
    (sufNotStartsWith, fun _ f v =>
      .ok (fmtNotIlike f (trimMatchesChar quoteC v ++ [percentC]))),
    (sufNotEndsWith, fun _ f v =>
      .ok (fmtNotIlike f ([percentC] ++ trimMatchesChar quoteC v))),
    (sufNotContains, fun _ f v =>
      .ok (fmtNotIlike f ([percentC] ++ trimMatchesChar quoteC v ++ [percentC]))),
    (sufStartsWith, fun _ f v =>
      .ok (fmtIlike f (trimMatchesChar quoteC v ++ [percentC]))),
    (sufContainsAny, fun key _ _ => .error (.unsupportedFilter key)),
    (sufContainsAll, fun key _ _ => .error (.unsupportedFilter key)),
    (sufEndsWith, fun _ f v =>
      .ok (fmtIlike f ([percentC] ++ trimMatchesChar quoteC v))),
    (sufContains, fun _ f v =>
      .ok (fmtIlike f ([percentC] ++ trimMatchesChar quoteC v ++ [percentC]))),
    (sufNotIn, fun _ f v => .ok (fmtOp f opNin v)),
    (sufGte, fun _ f v => .ok (fmtOp f opGte v)),
    (sufLte, fun _ f v => .ok (fmtOp f opLte v)),
    (sufNot, fun _ f v => .ok (fmtOp f opNeq v)),
    (sufGt, fun _ f v => .ok (fmtOp f opGt v)),
    (sufLt, fun _ f v => .ok (fmtOp f opLt v)),
    (sufIn, fun _ f v => .ok (fmtOp f opIn v)) ]

/-- The table entry selected for a path: the first (hence longest) suffix of
the table that matches. -/
def matchedSuffix (key : Str) : Option (Str × (Str → Str → Str → Except ConversionError Str)) :=
  specSuffixTable.find? (fun p => decide (p.1 <:+ key))

/-- The spec's predicted result for a path that ends in a supported (or
explicitly unsupported) operator suffix. -/
def specLongestSuffixResult (key value : Str) : Option (Except ConversionError Str) :=
  (matchedSuffix key).map (fun p => p.2 key (key.take (key.length - p.1.length)) value)

/- ------------------------------------------------------------------ -/
/- Length lemmas used by the termination arguments below.              -/
/- ------------------------------------------------------------------ -/

theorem length_dropWhileP_le (p : Char → Bool) (s : Str) :
    (s.dropWhile p).length ≤ s.length :=
  (show List.Sublist (s.dropWhile p) s from List.dropWhile_sublist p).length_le

theorem trimStart_length_le (s : Str) : (trimStart s).length ≤ s.length :=
  length_dropWhileP_le _ s

theorem trimEnd_length_le (s : Str) : (trimEnd s).length ≤ s.length := by
  unfold trimEnd
  calc (s.reverse.dropWhile isWs).reverse.length
      = (s.reverse.dropWhile isWs).length := by rw [List.length_reverse]
    _ ≤ s.reverse.length := length_dropWhileP_le _ _
    _ = s.length := by rw [List.length_reverse]

theorem trimWs_length_le (s : Str) : (trimWs s).length ≤ s.length :=
  le_trans (trimEnd_length_le _) (trimStart_length_le _)

/- ------------------------------------------------------------------ -/
/- The argument parser: `parse_graphql_params` / `parse_single_param`. -/
/- ------------------------------------------------------------------ -/

/-- The identifier-colon scan of the newline lookahead in
`parse_graphql_params` (the `for c in chars_iter` loop): true when a colon is
reached over identifier and whitespace characters only. -/
def paramColonScan : Str → Bool
  | [] => false
  | c :: t =>
    if c = ':' then true
    else if c.isAlphanum ∨ c = '_' then paramColonScan t
    else if c.isWhitespace then paramColonScan t
    else false

/-- The newline lookahead of `parse_graphql_params`: after trimming leading
whitespace, does the remaining text start with an identifier followed by a
colon? -/
def isParamStart (t : Str) : Bool :=
  match trimStart t with
  | [] => false
  | c :: rest => (c.isAlpha ∨ c = '_') && paramColonScan rest

def kDot : Str := ".".data

mutual

/-- `parse_graphql_params` from the source: splits an argument-list text into
`name: value` segments (string-, escape-, brace- and bracket-aware; commas
and qualifying newlines separate at depth zero) and feeds each segment to
`parse_single_param`. -/
def parse_graphql_params (params_str : Str) (params : PMap) : Except ConversionError PMap :=
  parseParamsAux params_str [] 0 0 false false params
termination_by (params_str.length, params_str.length, 2)
decreasing_by
  all_goals simp_wf
  all_goals simp only [Prod.lex_iff, List.length_append, List.length_cons, List.length_nil]
  all_goals (try simp)
  all_goals omega

/-- The character loop of `parse_graphql_params`, with the loop state
(current segment, depth counters, string/escape flags) made explicit. -/
def parseParamsAux (rest current_param : Str) (brace_count bracket_count : Int)
    (in_string escape_next : Bool) (params : PMap) : Except ConversionError PMap :=
  match rest with
  | [] =>
    if trimWs current_param = [] then .ok params
    else parse_single_param current_param params
  | ch :: t =>
    if escape_next then
      parseParamsAux t (current_param ++ [ch]) brace_count bracket_count in_string false params
    else if ch = '\\' then
      parseParamsAux t (current_param ++ [ch]) brace_count bracket_count in_string true params
    else if ch = quoteC then
      parseParamsAux t (current_param ++ [ch]) brace_count bracket_count (!in_string) false params
    else if in_string then
      parseParamsAux t (current_param ++ [ch]) brace_count bracket_count in_string false params
    else if ch = braceOpenC then
      parseParamsAux t (current_param ++ [ch]) (brace_count + 1) bracket_count in_string false params
    else if ch = braceCloseC then
      parseParamsAux t (current_param ++ [ch]) (brace_count - 1) bracket_count in_string false params
    else if ch = '[' then
      parseParamsAux t (current_param ++ [ch]) brace_count (bracket_count + 1) in_string false params
    else if ch = ']' then
      parseParamsAux t (current_param ++ [ch]) brace_count (bracket_count - 1) in_string false params
    else if ch = ',' then
      if brace_count = 0 ∧ bracket_count = 0 then
        match parse_single_param current_param params with
        | .ok params1 => parseParamsAux t [] brace_count bracket_count in_string false params1
        | .error e => .error e
      else
        parseParamsAux t (current_param ++ [ch]) brace_count bracket_count in_string false params
    else if ch = nlC ∨ ch = '\r' then
      if brace_count = 0 ∧ bracket_count = 0 then
        if isParamStart t then
          if trimWs current_param = [] then
            parseParamsAux t [] brace_count bracket_count in_string false params
          else
            match parse_single_param current_param params with
            | .ok params1 => parseParamsAux t [] brace_count bracket_count in_string false params1
            | .error e => .error e
        else
          parseParamsAux t (current_param ++ [ch]) brace_count bracket_count in_string false params
      else
        parseParamsAux t (current_param ++ [ch]) brace_count bracket_count in_string false params
    else
      parseParamsAux t (current_param ++ [ch]) brace_count bracket_count in_string false params
termination_by (rest.length + current_param.length, rest.length, 1)
decreasing_by
  all_goals simp_wf
  all_goals simp only [Prod.lex_iff, List.length_append, List.length_cons, List.length_nil]
  all_goals (try simp)
  all_goals omega

/-- `parse_single_param` from the source: splits a segment at its first
colon; brace-delimited values are parsed recursively, a `where` key splices
the nested pairs unprefixed, other keys prefix nested pair names with
`<key>.`; a segment without a colon is discarded. -/
def parse_single_param (param_str : Str) (params : PMap) : Except ConversionError PMap :=
  let trimmed := trimWs param_str
  match List.findIdx? (fun c => decide (c = ':')) trimmed with
  | none => .ok params
  | some idx =>
    let key := trimWs (trimmed.take idx)
    let value := trimWs (trimmed.drop (idx + 1))
    if hbr : value.head? = some braceOpenC ∧ value.getLast? = some braceCloseC then
      if key = kWhere then
        match parse_graphql_params ((value.drop 1).dropLast) [] with
        | .ok nested_params => .ok (insertAllP params nested_params)
        | .error e => .error e
      else
        match parse_graphql_params ((value.drop 1).dropLast) [] with
        | .ok nested_params =>
          .ok (nested_params.foldl
            (fun acc kv => insertP acc (key ++ kDot ++ kv.1) kv.2) params)
        | .error e => .error e
    else .ok (insertP params key value)
termination_by (param_str.length, 0, 0)
decreasing_by
  all_goals simp_wf
  all_goals simp only [Prod.lex_iff, List.length_append, List.length_cons, List.length_nil,
    List.length_dropLast, List.length_drop]
  all_goals
    (have hvpos : 0 < value.length := by
       refine List.length_pos.mpr ?_
       intro hx
       rw [hx] at hbr
       simp at hbr
     have hvlen : value.length ≤ param_str.length := by
       calc value.length ≤ (List.drop (idx + 1) trimmed).length := trimWs_length_le _
         _ ≤ trimmed.length := by
             rw [List.length_drop]; omega
         _ ≤ param_str.length := trimWs_length_le _
     have hlink : value.length = (trimWs (List.drop (idx + 1) (trimWs param_str))).length := rfl
     try simp
     omega)

end

/- ------------------------------------------------------------------ -/
/- `parse_nested_where_clause` and `flatten_where_map`.                -/
/- ------------------------------------------------------------------ -/

/-- `parse_nested_where_clause` from the source: strips outer braces
(`trim`, then every leading `{`, then every trailing `}`) and parses the
content as an argument list. -/
def parse_nested_where_clause (where_value : Str) : Except ConversionError PMap :=
  parse_graphql_params (trimEndMatches braceCloseC (trimStartMatches braceOpenC (trimWs where_value))) []

/-- Fuel measure for `flatten_where_map` (the source's recursion decreases on
the total size of the map's values; fuel makes that explicit). -/
def pmapWeight (m : PMap) : Nat := (m.map (fun kv => kv.2.length + 2)).sum

/-- The entry loop of `flatten_where_map`: a `where` key is re-parsed and its
flattened entries spliced in (entries whose value fails to parse are
dropped); every other entry is inserted unchanged. -/
def flattenWhereAux : Nat → PMap → PMap → PMap
  | 0, _, flat => flat
  | _ + 1, [], flat => flat
  | fuel + 1, (k, v) :: rest, flat =>
    if k = kWhere then
      match parse_nested_where_clause v with
      | .ok nested => flattenWhereAux fuel rest (insertAllP flat (flattenWhereAux fuel nested []))
      | .error _ => flattenWhereAux fuel rest flat
    else flattenWhereAux fuel rest (insertP flat k v)

/-- `flatten_where_map` from the source. -/
def flatten_where_map (m : PMap) : PMap := flattenWhereAux (pmapWeight m + m.length + 1) m []

/- ------------------------------------------------------------------ -/
/- The field classifier: `extract_field_info_from_selection_recursive`. -/
/- ------------------------------------------------------------------ -/

abbrev FieldSets := List Str × List Str

abbrev FieldInfoMap := List (Str × FieldSets)

def insertFI (m : FieldInfoMap) (k : Str) (v : FieldSets) : FieldInfoMap :=
  if m.any (fun e => decide (e.1 = k)) then m.map (fun e => if e.1 = k then (k, v) else e)
  else m ++ [(k, v)]

def lookupFI (m : FieldInfoMap) (k : Str) : Option FieldSets :=
  (m.find? (fun e => decide (e.1 = k))).map Prod.snd

/-- The brace walk inside the field classifier: scans to the brace that
closes the current nesting level, returning the content before it and the
rest after it.  If the text ends first, the source sets `nested_end` to
`len - 1`, i.e. the content loses its final character and the rest is
empty. -/
def fieldBraceScan : Str → Int → Str × Str
  | [], _ => ([], [])
  | c :: t, count =>
    let count1 := if c = braceOpenC then count + 1 else if c = braceCloseC then count - 1 else count
    if count1 ≤ 0 then ([], t)
    else
      match t with
      | [] => ([], [])
      | _ :: _ => let p := fieldBraceScan t count1; (c :: p.1, p.2)

theorem fieldBraceScan_fst_length_le (s : Str) (count : Int) :
    (fieldBraceScan s count).1.length ≤ s.length := by
  induction s generalizing count with
  | nil => simp [fieldBraceScan]
  | cons c t ih =>
    simp only [fieldBraceScan]
    generalize (if c = braceOpenC then count + 1 else if c = braceCloseC then count - 1 else count) = cnt
    split
    · simp
    · cases t with
      | nil => simp
      | cons a l =>
        simp only [List.length_cons]
        exact Nat.succ_le_succ (ih _)

theorem fieldBraceScan_snd_length_le (s : Str) (count : Int) :
    (fieldBraceScan s count).2.length ≤ s.length := by
  induction s generalizing count with
  | nil => simp [fieldBraceScan]
  | cons c t ih =>
    simp only [fieldBraceScan]
    generalize (if c = braceOpenC then count + 1 else if c = braceCloseC then count - 1 else count) = cnt
    split
    · simp
    · cases t with
      | nil => simp
      | cons a l =>
        simp only [List.length_cons]
        exact Nat.le_succ_of_le (ih _)

/-- Rust `char::is_alphanumeric || c == '_'` pattern of the classifier. -/
def isFieldChar (c : Char) : Bool := c.isAlphanum || c = '_'

mutual

/-- `extract_field_info_from_selection_recursive` from the source: strips
the outer braces of a selection set and classifies each identifier as a
nested-entity field (followed by `{`) or a regular field, recursing into
nested selections to build the per-entity field-info map. -/
def extract_field_info_from_selection_recursive (selection : Str) :
    List Str × List Str × FieldInfoMap :=
  fieldInfoLoop (trimWs (trimEndMatches braceCloseC (trimStartMatches braceOpenC (trimWs selection))))
    [] [] [] []
termination_by (selection.length, selection.length + 1)
decreasing_by
  all_goals simp_wf
  all_goals simp only [Prod.lex_iff]
  all_goals
    (have h1 := trimWs_length_le selection
     have h2 := length_dropWhileP_le (fun x => decide (x = braceOpenC)) (trimWs selection)
     have h3 := trimWs_length_le
       (trimEndMatches braceCloseC (trimStartMatches braceOpenC (trimWs selection)))
     have h4 : (trimEndMatches braceCloseC (trimStartMatches braceOpenC (trimWs selection))).length
         ≤ (trimStartMatches braceOpenC (trimWs selection)).length := by
       unfold trimEndMatches
       calc ((trimStartMatches braceOpenC (trimWs selection)).reverse.dropWhile
               (fun x => x = braceCloseC)).reverse.length
           = ((trimStartMatches braceOpenC (trimWs selection)).reverse.dropWhile
               (fun x => x = braceCloseC)).length := by rw [List.length_reverse]
         _ ≤ (trimStartMatches braceOpenC (trimWs selection)).reverse.length :=
             length_dropWhileP_le _ _
         _ = (trimStartMatches braceOpenC (trimWs selection)).length := by
             rw [List.length_reverse]
     have h5 : (trimStartMatches braceOpenC (trimWs selection)).length ≤ (trimWs selection).length :=
       length_dropWhileP_le _ _
     omega)

/-- The character loop of the field classifier, with the loop state made
explicit.  The source resumes scanning at the index where each inner brace
walk stopped; here the walk returns that rest of the text directly. -/
def fieldInfoLoop (chars current_field : Str) (nested_fields regular_fields : List Str)
    (info : FieldInfoMap) : List Str × List Str × FieldInfoMap :=
  match chars with
  | [] =>
    if current_field = [] then (nested_fields, regular_fields, info)
    else (nested_fields, insertS regular_fields current_field, info)
  | c :: t =>
    if isFieldChar c then
      fieldInfoLoop t (current_field ++ [c]) nested_fields regular_fields info
    else if isWs c then
      if hcf : current_field = [] then fieldInfoLoop t current_field nested_fields regular_fields info
      else
        let t2 := t.dropWhile isWs
        if ht2 : t2.head? = some braceOpenC then
          let scanned := fieldBraceScan t2.tail 1
          let sub := extract_field_info_from_selection_recursive scanned.1
          fieldInfoLoop scanned.2 [] (insertS nested_fields current_field) regular_fields
            (insertFI info current_field (sub.1, sub.2.1))
        else
          fieldInfoLoop t [] nested_fields (insertS regular_fields current_field) info
    else if c = braceOpenC then
      if hcf2 : current_field = [] then
        fieldInfoLoop (fieldBraceScan t 1).2 [] nested_fields regular_fields info
      else
        let scanned := fieldBraceScan t 1
        let sub := extract_field_info_from_selection_recursive scanned.1
        fieldInfoLoop scanned.2 [] (insertS nested_fields current_field) regular_fields
          (insertFI info current_field (sub.1, sub.2.1))
    else
      if current_field = [] then fieldInfoLoop t [] nested_fields regular_fields info
      else fieldInfoLoop t [] nested_fields (insertS regular_fields current_field) info
termination_by (chars.length, chars.length)
decreasing_by
  all_goals simp_wf
  all_goals simp only [Prod.lex_iff, List.length_cons]
  all_goals
    (try
      (have hs1 := fieldBraceScan_fst_length_le (List.tail (List.dropWhile isWs t)) 1
       have hs2 := fieldBraceScan_snd_length_le (List.tail (List.dropWhile isWs t)) 1
       have hd1 := length_dropWhileP_le isWs t
       have hd2 := List.length_tail (List.dropWhile isWs t)
       omega))
  all_goals
    (try
      (have hs1 := fieldBraceScan_fst_length_le t 1
       have hs2 := fieldBraceScan_snd_length_le t 1
       omega))
  all_goals omega

end

/- ------------------------------------------------------------------ -/
/- Grouping, sorting and the where-clause compiler.                    -/
/- ------------------------------------------------------------------ -/

/-- Base field name: the portion of a path before its first underscore
(the grouping key of `convert_filters_to_where_clause`). -/
def baseFieldName (key : Str) : Str :=
  match List.findIdx? (fun c => decide (c = '_')) key with
  | some i => key.take i
  | none => key

abbrev GroupMap := List (Str × List (Str × Str))

def upsertGroup (gs : GroupMap) (k : Str) (kv : Str × Str) : GroupMap :=
  if gs.any (fun g => decide (g.1 = k)) then
    gs.map (fun g => if g.1 = k then (g.1, g.2 ++ [kv]) else g)
  else gs ++ [(k, [kv])]

/-- The `basic_filters` grouping of the source: filters grouped by base
field name, in first-occurrence order. -/
def groupByBase (pairs : PMap) : GroupMap :=
  pairs.foldl (fun gs kv => upsertGroup gs (baseFieldName kv.1) kv) []

def lookupGroup (gs : GroupMap) (k : Str) : Option (List (Str × Str)) :=
  (gs.find? (fun g => decide (g.1 = k))).map Prod.snd

/-- The `grouped_filters` map of the source: dotted filters grouped by the
parent path before the last dot, each parent holding a child argument map. -/
def upsertNestedGroup (gs : List (Str × PMap)) (parent child v : Str) : List (Str × PMap) :=
  if gs.any (fun g => decide (g.1 = parent)) then
    gs.map (fun g => if g.1 = parent then (g.1, insertP g.2 child v) else g)
  else gs ++ [(parent, insertP [] child v)]

def groupNestedFilters (pairs : PMap) : List (Str × PMap) :=
  pairs.foldl (fun gs kv =>
    match rfindIdx '.' kv.1 with
    | some d => upsertNestedGroup gs (kv.1.take d) (kv.1.drop (d + 1)) kv.2
    | none => gs) []

/-- The basic (undotted) filters, in order. -/
def basicFilterPairs (pairs : PMap) : PMap :=
  pairs.filter (fun kv => decide (rfindIdx '.' kv.1 = none))

/-- Lexicographic string comparison (Rust `String::cmp` as a `≤` test). -/
def lexLe : Str → Str → Bool
  | [], _ => true
  | _ :: _, [] => false
  | a :: s, b :: t => if a = b then lexLe s t else decide (a < b)

/-- The sort comparator of `convert_filters_to_where_clause`: `chainId`
first, then ascending base field name. -/
def chainIdLe (a b : Str) : Bool :=
  if a = kChainId then true else if b = kChainId then false else lexLe a b

/-- The comparator as a decidable relation (Rust's `sort_by` is a stable
sort; the stable sort of a list by a total preorder is unique, so the
embedding may use any stable sort — insertion sort below). -/
def chainIdLeP (a b : Str) : Prop := chainIdLe a b = true

instance : DecidableRel chainIdLeP := fun a b => by unfold chainIdLeP; infer_instance

/-- `", "`-join (Rust `Vec::join(", ")`). -/
def joinComma (xs : List Str) : Str := List.intercalate kCommaSpace xs

/-- `"_and: ["` -/
def kAndOpen : Str := "_and: [".data

/-- One `_and` block: `format!("_and: [{}]", conds.join(", "))`. -/
def fmtAndBlock (conds : List Str) : Str := kAndOpen ++ joinComma conds ++ [']']

/-- `"{" ++ s ++ "}"`: `format!("{{{}}}", s)`. -/
def wrapBrace (s : Str) : Str := [braceOpenC] ++ s ++ [braceCloseC]

/-- The single/multiple-condition loop shared by the base case of
`process_nested_filters_recursive`: for each group in order, a singleton
group contributes its compiled condition to the first list, a larger group
contributes its brace-wrapped compiled conditions to the second. -/
def emitGrouped (groups : GroupMap) (ns rs : List Str) :
    Except ConversionError (List Str × List Str) :=
  match groups with
  | [] => .ok ([], [])
  | (_, conds) :: gs =>
    match conds with
    | [kv] =>
      match convert_basic_filter_to_hasura_condition kv.1 kv.2 ns rs with
      | .ok c =>
        match emitGrouped gs ns rs with
        | .ok (s, a) => .ok (c :: s, a)
        | .error e => .error e
      | .error e => .error e
    | _ =>
      match conds.mapM (fun kv => convert_basic_filter_to_hasura_condition kv.1 kv.2 ns rs) with
      | .ok cs =>
        match emitGrouped gs ns rs with
        | .ok (s, a) => .ok (s, cs.map wrapBrace ++ a)
        | .error e => .error e
      | .error e => .error e

/-- The basic-filter loop of `convert_filters_to_where_clause`: iterates the
sorted keys, looking each group up; singleton groups contribute a condition
to the first list, larger groups brace-wrapped conditions to the second. -/
def emitBasicFilters (keys : List Str) (groups : GroupMap) (ns rs : List Str) :
    Except ConversionError (List Str × List Str) :=
  match keys with
  | [] => .ok ([], [])
  | k :: ks =>
    let conds := (lookupGroup groups k).getD []
    match conds with
    | [kv] =>
      match convert_basic_filter_to_hasura_condition kv.1 kv.2 ns rs with
      | .ok c =>
        match emitBasicFilters ks groups ns rs with
        | .ok (s, a) => .ok (c :: s, a)
        | .error e => .error e
      | .error e => .error e
    | _ =>
      match conds.mapM (fun kv => convert_basic_filter_to_hasura_condition kv.1 kv.2 ns rs) with
      | .ok cs =>
        match emitBasicFilters ks groups ns rs with
        | .ok (s, a) => .ok (s, cs.map wrapBrace ++ a)
        | .error e => .error e
      | .error e => .error e

/-- `process_nested_filters_recursive` from the source: a dotted parent is
split at its first dot and the condition for the rest is re-wrapped; a plain
parent compiles its child filters (grouped by base name, `_and`-combining
duplicate groups) against the parent's own field sets from the info map. -/
def process_nested_filters_recursive (parent : Str) (child_filters : PMap)
    (nested_entity_info : FieldInfoMap) : Except ConversionError Str :=
  match hfd : List.findIdx? (fun c => decide (c = '.')) parent with
  | some dot_idx =>
    let first_part := parent.take dot_idx
    let rest := parent.drop (dot_idx + 1)
    match process_nested_filters_recursive rest child_filters nested_entity_info with
    | .ok rest_condition =>
      let inner_condition :=
        match List.findIdx? (fun c => decide (c = ':')) rest_condition with
        | some colon_idx => trimWs (rest_condition.drop (colon_idx + 1))
        | none => wrapBrace rest_condition
      .ok (first_part ++ kColonOpenBrace ++ rest ++ kColonSpace ++ inner_condition ++ [braceCloseC])
    | .error e => .error e
  | none =>
    let sets := (lookupFI nested_entity_info parent).getD ([], [])
    match emitGrouped (groupByBase child_filters) sets.1 sets.2 with
    | .ok (child_conditions, child_and_conditions) =>
      let child_conditions1 :=
        if child_and_conditions = [] then child_conditions
        else child_conditions ++ [fmtAndBlock child_and_conditions]
      .ok (parent ++ kColonOpenBrace ++ joinComma child_conditions1 ++ [braceCloseC])
    | .error e => .error e
termination_by parent.length
decreasing_by
  all_goals simp_wf
  all_goals
    (have hne : parent ≠ [] := by
       intro hx
       rw [hx] at hfd
       simp [List.findIdx?] at hfd
     have : 0 < parent.length := List.length_pos.mpr hne
     try simp only [List.length_drop]
     omega)

/-- The pagination/ordering keys removed before filter compilation. -/
def cleanedFlatFilters (params : PMap) : PMap :=
  removeKeyP (removeKeyP (removeKeyP (removeKeyP (removeKeyP
    (flatten_where_map params) kFirst) kSkip) kOrderBy) kOrderDirection) kWhere

/-- `"where: {"` -/
def kWhereOpen : Str := "where: \x7b".data

/-- The condition list built by `convert_filters_to_where_clause`: sorted
single conditions, then one `_and` block when any base field has several
conditions, then the nested-parent conditions. -/
def whereConditionsList (params : PMap) (nested_entity_fields regular_fields : List Str)
    (nested_entity_info : FieldInfoMap) : Except ConversionError (List Str) :=
  let flat := cleanedFlatFilters params
  let basicGroups := groupByBase (basicFilterPairs flat)
  let sorted_keys := List.insertionSort chainIdLeP (basicGroups.map Prod.fst)
  match emitBasicFilters sorted_keys basicGroups nested_entity_fields regular_fields with
  | .ok (singles, ands) =>
    match (groupNestedFilters flat).mapM
        (fun g => process_nested_filters_recursive g.1 g.2 nested_entity_info) with
    | .ok nestedConds =>
      .ok ((singles ++ (if ands = [] then [] else [fmtAndBlock ands])) ++ nestedConds)
    | .error e => .error e
  | .error e => .error e

/-- `convert_filters_to_where_clause` from the source. -/
def convert_filters_to_where_clause (params : PMap) (nested_entity_fields regular_fields : List Str)
    (nested_entity_info : FieldInfoMap) : Except ConversionError Str :=
  match whereConditionsList params nested_entity_fields regular_fields nested_entity_info with
  | .ok where_conditions =>
    if where_conditions = [] then .ok []
    else .ok (kWhereOpen ++ joinComma where_conditions ++ [braceCloseC])
  | .error e => .error e

/- ------------------------------------------------------------------ -/
/- Selection-set sanitizers.                                           -/
/- ------------------------------------------------------------------ -/

/-- The inner paren-removal walk of `sanitize_selection_set`: consumes up to
and including the parenthesis closing the current level (quote-aware),
returning the rest; an unterminated list consumes everything. -/
def skipParensArgs : Str → Int → Bool → Str
  | [], _, _ => []
  | c :: t, depth, inStr =>
    if c = quoteC then skipParensArgs t depth (!inStr)
    else if inStr then skipParensArgs t depth inStr
    else if c = '(' then skipParensArgs t (depth + 1) inStr
    else if c = ')' then (if depth = 1 then t else skipParensArgs t (depth - 1) inStr)
    else skipParensArgs t depth inStr

theorem skipParensArgs_length_le (s : Str) (depth : Int) (inStr : Bool) :
    (skipParensArgs s depth inStr).length ≤ s.length := by
  induction s generalizing depth inStr with
  | nil => simp [skipParensArgs]
  | cons c t ih =>
    simp only [skipParensArgs]
    split_ifs with h1 h2 h3 h4 h5
    all_goals simp only [List.length_cons]
    all_goals first
      | exact Nat.le_succ_of_le (ih _ _)
      | exact Nat.le_succ _

/-- `sanitize_selection_set` from the source: copies the text, dropping
every balanced parenthesized argument list found outside string literals. -/
def sanitize_selection_set_aux : Str → Bool → Str
  | [], _ => []
  | c :: t, inStr =>
    if c = quoteC then c :: sanitize_selection_set_aux t (!inStr)
    else if ¬ inStr ∧ c = '(' then sanitize_selection_set_aux (skipParensArgs t 1 false) inStr
    else c :: sanitize_selection_set_aux t inStr
termination_by s _ => s.length
decreasing_by
  all_goals simp_wf
  all_goals try (have hsp := skipParensArgs_length_le t 1 false; omega)
  all_goals omega

def sanitize_selection_set (input : Str) : Str := sanitize_selection_set_aux input false

/- ------------------------------------------------------------------ -/
/- Balanced-delimiter scans (plain counting, as in the source).        -/
/- ------------------------------------------------------------------ -/

/-- Scan for the delimiter closing the current level, counting only the
given pair (no string awareness, as in the source's entity and fragment
walks).  Returns the content before the closing delimiter and the rest
after it, or `none` when the text ends first. -/
def scanDelim (openC closeC : Char) : Str → Int → Option (Str × Str)
  | [], _ => none
  | c :: t, depth =>
    if c = closeC then
      if depth = 1 then some ([], t)
      else (scanDelim openC closeC t (depth - 1)).map (fun p => (c :: p.1, p.2))
    else if c = openC then (scanDelim openC closeC t (depth + 1)).map (fun p => (c :: p.1, p.2))
    else (scanDelim openC closeC t depth).map (fun p => (c :: p.1, p.2))

/-- `sanitize_fragment_arguments` from the source: finds the fragment body's
braces and sanitizes the body, leaving header and tail untouched;
a fragment without a matched body is returned unchanged. -/
def sanitize_fragment_arguments (fragment_text : Str) : Str :=
  match List.findIdx? (fun c => decide (c = braceOpenC)) fragment_text with
  | none => fragment_text
  | some open_idx =>
    match scanDelim braceOpenC braceCloseC (fragment_text.drop (open_idx + 1)) 1 with
    | none => fragment_text
    | some (body, tail) =>
      fragment_text.take (open_idx + 1) ++ sanitize_selection_set (trimWs body)
        ++ [braceCloseC] ++ tail

theorem scanDelim_snd_length_le (openC closeC : Char) (s : Str) (depth : Int)
    (p : Str × Str) (h : scanDelim openC closeC s depth = some p) : p.2.length < s.length := by
  induction s generalizing depth p with
  | nil => simp [scanDelim] at h
  | cons c t ih =>
    simp only [scanDelim] at h
    split_ifs at h with h1 h2 h3
    · simp only [Option.some.injEq] at h
      subst h
      simp only [List.length_cons]
      omega
    all_goals
      (rw [Option.map_eq_some'] at h
       obtain ⟨q, hq, hpq⟩ := h
       have hlen := ih _ _ hq
       subst hpq
       simp only [List.length_cons]
       omega)

/- ------------------------------------------------------------------ -/
/- The entity extractor: `extract_multiple_entities`.                  -/
/- ------------------------------------------------------------------ -/

/-- One entity invocation: name, parsed argument map, formatted selection. -/
abbrev EntityTriple := Str × PMap × Str

/-- The stop-list of short English words rejected as entity names. -/
def stopWords : List Str :=
  ["id".data, "in".data, "on".data, "to".data, "of".data, "at".data, "by".data, "is".data,
   "it".data, "as".data, "or".data, "an".data, "if".data, "up".data, "do".data, "go".data,
   "no".data, "so".data, "we".data, "he".data, "me".data, "be".data, "my".data, "am".data,
   "us".data, "hi".data, "lo".data, "ok".data, "hi".data, "lo".data, "ok".data]

/-- Rust `char::is_alphanumeric` as used by the extractor's name scan. -/
def isAlnumC (c : Char) : Bool := c.isAlphanum

/-- `"{\n    "` -/
def kSelOpen : Str := "\x7b\n    ".data

/-- `"\n  }"` -/
def kSelClose : Str := "\n  \x7d".data

/-- The scanning loop of `extract_multiple_entities`, consuming the text.
The source walks an index; here each step consumes the scanned prefix.  The
source resumes at the selection's closing brace, which its next iteration
skips as a one-character non-name; here the scan resumes directly after it.
An unterminated argument list or selection set ends the scan with the
entities found so far (the source `break`s and returns `Ok`). -/
def extractEntitiesAux (s : Str) : Except ConversionError (List EntityTriple) :=
  match hs1 : s.dropWhile isWs with
  | [] => .ok []
  | c :: t =>
    if hname : (c :: t).takeWhile isAlnumC = [] then extractEntitiesAux t
    else if ((c :: t).takeWhile isAlnumC).length < 2
        ∨ (c :: t).takeWhile isAlnumC ∈ stopWords then
      extractEntitiesAux ((c :: t).dropWhile isAlnumC).tail
    else
      if hpar : (((c :: t).dropWhile isAlnumC).dropWhile isWs).head? = some '(' then
        match hscan : scanDelim '(' ')' (((c :: t).dropWhile isAlnumC).dropWhile isWs).tail 1 with
        | none => .ok []
        | some (params_str, rest1) =>
          match parse_graphql_params params_str [] with
          | .error e => .error e
          | .ok params =>
            if hbr : (rest1.dropWhile isWs).head? = some braceOpenC then
              match hscan2 : scanDelim braceOpenC braceCloseC (rest1.dropWhile isWs).tail 1 with
              | none => .ok []
              | some (raw_selection, rest2) =>
                match extractEntitiesAux rest2 with
                | .ok restEnts =>
                  .ok (((c :: t).takeWhile isAlnumC, params,
                    kSelOpen ++ sanitize_selection_set (trimWs raw_selection) ++ kSelClose)
                    :: restEnts)
                | .error e => .error e
            else extractEntitiesAux (rest1.dropWhile isWs).tail
      else if hbr2 : (((c :: t).dropWhile isAlnumC).dropWhile isWs).head? = some braceOpenC then
        match hscan3 :
            scanDelim braceOpenC braceCloseC (((c :: t).dropWhile isAlnumC).dropWhile isWs).tail 1 with
        | none => .ok []
        | some (raw_selection, rest2) =>
          match extractEntitiesAux rest2 with
          | .ok restEnts =>
            .ok (((c :: t).takeWhile isAlnumC, ([] : PMap),
              kSelOpen ++ sanitize_selection_set (trimWs raw_selection) ++ kSelClose) :: restEnts)
          | .error e => .error e
      else extractEntitiesAux (((c :: t).dropWhile isAlnumC).dropWhile isWs).tail
termination_by s.length
decreasing_by
  all_goals simp_wf
  all_goals
    (have hds : (List.dropWhile isWs s).length ≤ s.length := length_dropWhileP_le _ _
     rw [hs1] at hds
     simp only [List.length_cons] at hds
     have hdan : (List.dropWhile isAlnumC (c :: t)).length ≤ t.length + 1 := by
       have h0 := length_dropWhileP_le isAlnumC (c :: t)
       simpa using h0
     have hdws : (List.dropWhile isWs (List.dropWhile isAlnumC (c :: t))).length
         ≤ (List.dropWhile isAlnumC (c :: t)).length := length_dropWhileP_le _ _
     have htl1 := List.length_tail (List.dropWhile isAlnumC (c :: t))
     have htl2 := List.length_tail (List.dropWhile isWs (List.dropWhile isAlnumC (c :: t)))
     try have hr1 := scanDelim_snd_length_le '(' ')' _ 1 _ hscan
     try simp only [List.length_cons] at hr1
     try have hdr1 : (List.dropWhile isWs rest1).length ≤ rest1.length := length_dropWhileP_le _ _
     try have htl3 := List.length_tail (List.dropWhile isWs rest1)
     try have hr2 := scanDelim_snd_length_le braceOpenC braceCloseC _ 1 _ hscan2
     try simp only [List.length_cons] at hr2
     try have hr3 := scanDelim_snd_length_le braceOpenC braceCloseC _ 1 _ hscan3
     try simp only [List.length_cons] at hr3
     omega)

/-- `extract_multiple_entities` from the source: skips leading whitespace
and an optional opening brace, then scans entity invocations. -/
def extract_multiple_entities (query : Str) : Except ConversionError (List EntityTriple) :=
  match query.dropWhile isWs with
  | [] => .ok []
  | c :: t => if c = braceOpenC then extractEntitiesAux t else extractEntitiesAux (c :: t)

/- ------------------------------------------------------------------ -/
/- `singularize_and_capitalize` and the query assembler.               -/
/- ------------------------------------------------------------------ -/

def kTranches : Str := "tranches".data

def kTrancheLower : Str := "tranche".data

def sufIes : Str := "ies".data

def sufChes : Str := "ches".data

def sufShes : Str := "shes".data

def sufXes : Str := "xes".data

def sufZes : Str := "zes".data

def sufSses : Str := "sses".data

def sufOes : Str := "oes".data

def sufSes : Str := "ses".data

def capitalizeFirst (s : Str) : Str :=
  match s with
  | [] => []
  | c :: t => c.toUpper :: t

/-- `singularize_and_capitalize` from the source: irregular table first
(`tranches`), then the English-plural suffix rules, then capitalize. -/
def singularize_and_capitalize (s : Str) : Str :=
  if s.map Char.toLower = kTranches then capitalizeFirst kTrancheLower
  else
    capitalizeFirst
      (if sufIes <:+ s ∧ 3 < s.length then s.take (s.length - 3) ++ ['y']
       else if sufChes <:+ s ∨ sufShes <:+ s ∨ sufXes <:+ s ∨ sufZes <:+ s
           ∨ sufSses <:+ s ∨ sufOes <:+ s ∨ sufSes <:+ s then
         s.take (s.length - 2)
       else if ['s'] <:+ s ∧ 1 < s.length then s.take (s.length - 1)
       else s)

/-- `"  "` (two-space indent of an emitted entity). -/
def kIndent : Str := "  ".data

/-- `"_by_pk(id: "` -/
def kByPkOpen : Str := "_by_pk(id: ".data

/-- `"limit: "` -/
def kLimit : Str := "limit: ".data

/-- `"offset: "` -/
def kOffset : Str := "offset: ".data

/-- `"order_by: {"` -/
def kOrderByOpen : Str := "order_by: \x7b".data

/-- `"asc"` -/
def kAsc : Str := "asc".data

/-- The per-entity body of the loop in `convert_main_query`: primary-key
shortcut for a singular entity whose only argument is `id`; otherwise
chainId injection, field classification, filter compilation and assembly of
`limit`/`offset`/`order_by`/`where` around the capitalized singular name. -/
def convertEntityInvocation (chain_id : Option Str) (ent : EntityTriple) :
    Except ConversionError Str :=
  let entity := ent.1
  let params := ent.2.1
  let selection := ent.2.2
  let entity_cap := singularize_and_capitalize entity
  let limit := match lookupP params kFirst with
    | some v => if (trimStart v).head? = some dollarC then none else some v
    | none => none
  let offset := match lookupP params kSkip with
    | some v => if (trimStart v).head? = some dollarC then none else some v
    | none => none
  if ¬ (['s'] <:+ entity) ∧ params.length = 1 ∧ containsKeyP params kId then
    .ok (kIndent ++ entity ++ kByPkOpen ++ (lookupP params kId).getD [] ++ [')', ' '] ++ selection)
  else
    let converted_params := match chain_id with
      | some cid => insertP params kChainId ([quoteC] ++ cid ++ [quoteC])
      | none => params
    let info := extract_field_info_from_selection_recursive selection
    match convert_filters_to_where_clause converted_params info.1 info.2.1 info.2.2 with
    | .error e => .error e
    | .ok where_clause =>
      let params_vec : List Str :=
        (match limit with | some l => [kLimit ++ l] | none => [])
        ++ (match offset with | some o => [kOffset ++ o] | none => [])
        ++ (match lookupP params kOrderBy with
            | some order_field =>
              let order_dir := (lookupP params kOrderDirection).getD kAsc
              if ¬ ((trimStart order_field).head? = some dollarC)
                  ∧ ¬ ((trimStart order_dir).head? = some dollarC) then
                [kOrderByOpen ++ order_field ++ kColonSpace ++ order_dir ++ [braceCloseC]]
              else []
            | none => [])
        ++ (if where_clause = [] then [] else [where_clause])
      let params_str :=
        if params_vec = [] then [] else ['('] ++ joinComma params_vec ++ [')']
      .ok (kIndent ++ entity_cap ++ params_str ++ [' '] ++ selection)

/-- `"query"` -/
def kQueryWord : Str := "query".data

/-- `"query {\n"` -/
def kQueryOpen : Str := "query \x7b\n".data

/-- `"\n}"` -/
def kQueryClose : Str := "\n\x7d".data

/-- `"\n"`-join. -/
def joinNl (xs : List Str) : Str := List.intercalate [nlC] xs

/-- `convert_main_query` from the source: strips a `query … { … }` wrapper
to its inner body, extracts the entities and converts each in order. -/
def convert_main_query (main_query : Str) (chain_id : Option Str) :
    Except ConversionError Str :=
  let stripped_query :=
    if kQueryWord <+: trimWs main_query then
      match List.findIdx? (fun x => decide (x = braceOpenC)) (trimWs main_query),
          rfindIdx braceCloseC (trimWs main_query) with
      | some start_brace, some end_brace =>
        ((trimWs main_query).take end_brace).drop (start_brace + 1)
      | _, _ => main_query
    else main_query
  match extract_multiple_entities stripped_query with
  | .error e => .error e
  | .ok entities =>
    match entities.mapM (convertEntityInvocation chain_id) with
    | .ok converted_entities => .ok (kQueryOpen ++ joinNl converted_entities ++ kQueryClose)
    | .error e => .error e

/- ------------------------------------------------------------------ -/
/- The fragment splitter.                                              -/
/- ------------------------------------------------------------------ -/

/-- `"fragment "` -/
def kFragmentTok : Str := "fragment ".data

/-- One iteration of the scan loop in `extract_fragments_and_main_query`:
`done` when no further `fragment ` token (or no `{` after one) is found;
otherwise the fragment's balanced span is moved into the fragment
accumulator — except that an unterminated fragment body leaves the state
unchanged, which makes the source's loop spin forever. -/
inductive FragStep where
  | done (fragments remaining : Str) : FragStep
  | next (fragments remaining : Str) : FragStep

def fragStep (fragments remaining : Str) : FragStep :=
  match findSubIdx kFragmentTok remaining with
  | none => .done fragments remaining
  | some start_idx =>
    match List.findIdx? (fun x => decide (x = braceOpenC)) (remaining.drop start_idx) with
    | none => .done fragments remaining
    | some open_rel =>
      match scanDelim braceOpenC braceCloseC ((remaining.drop start_idx).drop (open_rel + 1)) 1 with
      | some (body, tail) =>
        let fragment_text :=
          sanitize_fragment_arguments ((remaining.drop start_idx).take (open_rel + 1)
            ++ body ++ [braceCloseC])
        .next (if fragments = [] then trimWs fragment_text
               else fragments ++ [nlC] ++ trimWs fragment_text)
          (trimEnd (remaining.take start_idx) ++ tail)
      | none => .next fragments remaining

/-- The scan loop, fuelled: `none` means the loop has not terminated within
the given number of iterations. -/
def fragLoop : Nat → Str → Str → Option (Str × Str)
  | 0, _, _ => none
  | n + 1, fragments, remaining =>
    match fragStep fragments remaining with
    | .done f r => some (f, trimWs r)
    | .next f r => fragLoop n f r

/-- `extract_fragments_and_main_query` from the source (fuelled: the
source's loop does not terminate on every input, see `C4`). -/
def extract_fragments_and_main_query (fuel : Nat) (query : Str) : Option (Str × Str) :=
  fragLoop fuel [] query

/- ------------------------------------------------------------------ -/
/- `convert_meta_query` and `convert_query_structure`.                 -/
/- ------------------------------------------------------------------ -/

def kMeta : Str := "_meta".data

/-- `"_meta { block { number } }"` -/
def kSimpleMetaPattern : Str := "_meta \x7b block \x7b number \x7d \x7d".data

def kBlockHash : Str := "block \x7b hash".data

def kBlockParentHash : Str := "block \x7b parentHash".data

def kBlockTimestamp : Str := "block \x7b timestamp".data

def kDeployment : Str := "deployment".data

def kHasIndexingErrors : Str := "hasIndexingErrors".data

def complexMetaPatterns : List Str :=
  [kBlockHash, kBlockParentHash, kBlockTimestamp, kDeployment, kHasIndexingErrors]

/-- The fixed translation of the simple `_meta` query. -/
def kMetaOutput : Str :=
  "query \x7b\n  chain_metadata \x7b\n    latest_fetched_block_number\n  \x7d\n\x7d".data

/-- `convert_meta_query` from the source. -/
def convert_meta_query (query : Str) : Except ConversionError Str :=
  if complexMetaPatterns.any (fun p => containsSub query p) then .error .complexMetaQuery
  else if containsSub query kSimpleMetaPattern then .ok kMetaOutput
  else if containsSub query kMeta then .error .complexMetaQuery
  else .error .invalidQueryFormat

/-- `convert_query_structure` from the source: the `_meta` special case
first, then fragment extraction (fuelled) and main-query conversion.
`none` means the fragment loop has not terminated within the fuel. -/
def convert_query_structure (fuel : Nat) (query : Str) (chain_id : Option Str) :
    Option (Except ConversionError Str) :=
  if containsSub query kMeta then some (convert_meta_query query)
  else
    match extract_fragments_and_main_query fuel query with
    | none => none
    | some (fragments, main_query) =>
      some (match convert_main_query main_query chain_id with
        | .ok converted_main_query =>
          .ok ((if fragments = [] then [] else fragments ++ [nlC]) ++ converted_main_query)
        | .error e => .error e)

/- ------------------------------------------------------------------ -/
/- Claim theorems.                                                     -/
/- ------------------------------------------------------------------ -/

/-- Helper: if `s` is a suffix of `key` but not of the longer `t`, then `t`
is not a suffix of `key`. -/
theorem not_suffix_of_longer {s t key : Str} (hs : s <:+ key) (hst : ¬ s <:+ t)
    (hl : s.length ≤ t.length) : ¬ t <:+ key :=
  fun ht => hst (List.suffix_of_suffix_length_le hs ht hl)

/-- C1: for every flattened argument path that ends in an operator suffix of
the spec's table (§4.6), `convert_basic_filter_to_hasura_condition` produces
exactly the table's condition for the longest matching suffix
(`specLongestSuffixResult` tries the table longest-suffix-first), including
the `UnsupportedFilter` failures for `_containsAny`/`_containsAll`; the
selection-set field lists do not influence suffixed paths. -/
theorem C1_suffix_table_longest_match (key value : Str) (ns rs : List Str)
    (r : Except ConversionError Str) (h : specLongestSuffixResult key value = some r) :
    convert_basic_filter_to_hasura_condition key value ns rs = r := by
  unfold specLongestSuffixResult matchedSuffix at h
  unfold convert_basic_filter_to_hasura_condition
  by_cases hW : key = kWhere
  · subst hW
    simp +decide [specSuffixTable, List.find?] at h
  rw [if_neg hW]
  by_cases h1 : sufNotStartsWithNocase <:+ key
  · rw [if_pos h1]
    simp only [specSuffixTable, List.find?,
      decide_eq_true h1, Option.map_some', Option.some.injEq] at h
    exact h
  rw [if_neg h1]
  by_cases h2 : sufNotEndsWithNocase <:+ key
  · rw [if_pos h2]
    simp only [specSuffixTable, List.find?, decide_eq_false h1,
      decide_eq_true h2, Option.map_some', Option.some.injEq] at h
    exact h
  rw [if_neg h2]
  by_cases h3 : sufNotContainsNocase <:+ key
  · rw [if_pos h3]
    simp only [specSuffixTable, List.find?, decide_eq_false h1, decide_eq_false h2,
      decide_eq_true h3, Option.map_some', Option.some.injEq] at h
    exact h
  rw [if_neg h3]
  by_cases h4 : sufStartsWithNocase <:+ key
  · rw [if_pos h4]
    simp only [specSuffixTable, List.find?, decide_eq_false h1, decide_eq_false h2, decide_eq_false h3,
      decide_eq_true h4, Option.map_some', Option.some.injEq] at h
    exact h
  rw [if_neg h4]
  by_cases h5 : sufEndsWithNocase <:+ key
  · rw [if_pos h5]
    simp only [specSuffixTable, List.find?, decide_eq_false h1, decide_eq_false h2, decide_eq_false h3, decide_eq_false h4,
      decide_eq_true h5, Option.map_some', Option.some.injEq] at h
    exact h
  rw [if_neg h5]
  by_cases h6 : sufContainsNocase <:+ key
  · rw [if_pos h6]
    simp only [specSuffixTable, List.find?, decide_eq_false h1, decide_eq_false h2, decide_eq_false h3, decide_eq_false h4, decide_eq_false h5,
      decide_eq_true h6, Option.map_some', Option.some.injEq] at h
    exact h
  rw [if_neg h6]
  by_cases h7 : sufNotStartsWith <:+ key
  · rw [if_pos h7]
    simp only [specSuffixTable, List.find?, decide_eq_false h1, decide_eq_false h2, decide_eq_false h3, decide_eq_false h4, decide_eq_false h5, decide_eq_false h6,
      decide_eq_true h7, Option.map_some', Option.some.injEq] at h
    exact h
  rw [if_neg h7]
  by_cases h8 : sufNotEndsWith <:+ key
  · rw [if_pos h8]
    simp only [specSuffixTable, List.find?, decide_eq_false h1, decide_eq_false h2, decide_eq_false h3, decide_eq_false h4, decide_eq_false h5, decide_eq_false h6, decide_eq_false h7,
      decide_eq_true h8, Option.map_some', Option.some.injEq] at h
    exact h
  rw [if_neg h8]
  by_cases h9 : sufNotContains <:+ key
  · rw [if_pos h9]
    simp only [specSuffixTable, List.find?, decide_eq_false h1, decide_eq_false h2, decide_eq_false h3, decide_eq_false h4, decide_eq_false h5, decide_eq_false h6, decide_eq_false h7, decide_eq_false h8,
      decide_eq_true h9, Option.map_some', Option.some.injEq] at h
    exact h
  rw [if_neg h9]
  by_cases h10 : sufStartsWith <:+ key
  · rw [if_pos h10]
    simp only [specSuffixTable, List.find?, decide_eq_false h1, decide_eq_false h2, decide_eq_false h3, decide_eq_false h4, decide_eq_false h5, decide_eq_false h6, decide_eq_false h7, decide_eq_false h8, decide_eq_false h9,
      decide_eq_true h10, Option.map_some', Option.some.injEq] at h
    exact h
  rw [if_neg h10]
  by_cases h11 : sufEndsWith <:+ key
  · rw [if_pos h11]
    have hA : ¬ sufContainsAny <:+ key := not_suffix_of_longer h11 (by decide) (by decide)
    have hB : ¬ sufContainsAll <:+ key := not_suffix_of_longer h11 (by decide) (by decide)
    simp only [specSuffixTable, List.find?, decide_eq_false h1, decide_eq_false h2, decide_eq_false h3, decide_eq_false h4, decide_eq_false h5, decide_eq_false h6, decide_eq_false h7, decide_eq_false h8, decide_eq_false h9, decide_eq_false h10, decide_eq_false hA, decide_eq_false hB,
      decide_eq_true h11, Option.map_some', Option.some.injEq] at h
    exact h
  rw [if_neg h11]
  by_cases h12 : sufContains <:+ key
  · rw [if_pos h12]
    have hA : ¬ sufContainsAny <:+ key := not_suffix_of_longer h12 (by decide) (by decide)
    have hB : ¬ sufContainsAll <:+ key := not_suffix_of_longer h12 (by decide) (by decide)
    simp only [specSuffixTable, List.find?, decide_eq_false h1, decide_eq_false h2, decide_eq_false h3, decide_eq_false h4, decide_eq_false h5, decide_eq_false h6, decide_eq_false h7, decide_eq_false h8, decide_eq_false h9, decide_eq_false h10, decide_eq_false h11, decide_eq_false hA, decide_eq_false hB,
      decide_eq_true h12, Option.map_some', Option.some.injEq] at h
    exact h
  rw [if_neg h12]
  by_cases h13 : sufNotIn <:+ key
  · rw [if_pos h13]
    have hA : ¬ sufContainsAny <:+ key := not_suffix_of_longer h13 (by decide) (by decide)
    have hB : ¬ sufContainsAll <:+ key := not_suffix_of_longer h13 (by decide) (by decide)
    simp only [specSuffixTable, List.find?, decide_eq_false h1, decide_eq_false h2, decide_eq_false h3, decide_eq_false h4, decide_eq_false h5, decide_eq_false h6, decide_eq_false h7, decide_eq_false h8, decide_eq_false h9, decide_eq_false h10, decide_eq_false h11, decide_eq_false h12, decide_eq_false hA, decide_eq_false hB,
      decide_eq_true h13, Option.map_some', Option.some.injEq] at h
    exact h
  rw [if_neg h13]
  by_cases h14 : sufGte <:+ key
  · rw [if_pos h14]
    have hA : ¬ sufContainsAny <:+ key := not_suffix_of_longer h14 (by decide) (by decide)
    have hB : ¬ sufContainsAll <:+ key := not_suffix_of_longer h14 (by decide) (by decide)
    simp only [specSuffixTable, List.find?, decide_eq_false h1, decide_eq_false h2, decide_eq_false h3, decide_eq_false h4, decide_eq_false h5, decide_eq_false h6, decide_eq_false h7, decide_eq_false h8, decide_eq_false h9, decide_eq_false h10, decide_eq_false h11, decide_eq_false h12, decide_eq_false h13, decide_eq_false hA, decide_eq_false hB,
      decide_eq_true h14, Option.map_some', Option.some.injEq] at h
    exact h
  rw [if_neg h14]
  by_cases h15 : sufLte <:+ key
  · rw [if_pos h15]
    have hA : ¬ sufContainsAny <:+ key := not_suffix_of_longer h15 (by decide) (by decide)
    have hB : ¬ sufContainsAll <:+ key := not_suffix_of_longer h15 (by decide) (by decide)
    simp only [specSuffixTable, List.find?, decide_eq_false h1, decide_eq_false h2, decide_eq_false h3, decide_eq_false h4, decide_eq_false h5, decide_eq_false h6, decide_eq_false h7, decide_eq_false h8, decide_eq_false h9, decide_eq_false h10, decide_eq_false h11, decide_eq_false h12, decide_eq_false h13, decide_eq_false h14, decide_eq_false hA, decide_eq_false hB,
      decide_eq_true h15, Option.map_some', Option.some.injEq] at h
    exact h
  rw [if_neg h15]
  by_cases h16 : sufNot <:+ key
  · rw [if_pos h16]
    have hA : ¬ sufContainsAny <:+ key := not_suffix_of_longer h16 (by decide) (by decide)
    have hB : ¬ sufContainsAll <:+ key := not_suffix_of_longer h16 (by decide) (by decide)
    simp only [specSuffixTable, List.find?, decide_eq_false h1, decide_eq_false h2, decide_eq_false h3, decide_eq_false h4, decide_eq_false h5, decide_eq_false h6, decide_eq_false h7, decide_eq_false h8, decide_eq_false h9, decide_eq_false h10, decide_eq_false h11, decide_eq_false h12, decide_eq_false h13, decide_eq_false h14, decide_eq_false h15, decide_eq_false hA, decide_eq_false hB,
      decide_eq_true h16, Option.map_some', Option.some.injEq] at h
    exact h
  rw [if_neg h16]
  by_cases h17 : sufGt <:+ key
  · rw [if_pos h17]
    have hA : ¬ sufContainsAny <:+ key := not_suffix_of_longer h17 (by decide) (by decide)
    have hB : ¬ sufContainsAll <:+ key := not_suffix_of_longer h17 (by decide) (by decide)
    simp only [specSuffixTable, List.find?, decide_eq_false h1, decide_eq_false h2, decide_eq_false h3, decide_eq_false h4, decide_eq_false h5, decide_eq_false h6, decide_eq_false h7, decide_eq_false h8, decide_eq_false h9, decide_eq_false h10, decide_eq_false h11, decide_eq_false h12, decide_eq_false h13, decide_eq_false h14, decide_eq_false h15, decide_eq_false h16, decide_eq_false hA, decide_eq_false hB,
      decide_eq_true h17, Option.map_some', Option.some.injEq] at h
    exact h
  rw [if_neg h17]
  by_cases h18 : sufLt <:+ key
  · rw [if_pos h18]
    have hA : ¬ sufContainsAny <:+ key := not_suffix_of_longer h18 (by decide) (by decide)
    have hB : ¬ sufContainsAll <:+ key := not_suffix_of_longer h18 (by decide) (by decide)
    simp only [specSuffixTable, List.find?, decide_eq_false h1, decide_eq_false h2, decide_eq_false h3, decide_eq_false h4, decide_eq_false h5, decide_eq_false h6, decide_eq_false h7, decide_eq_false h8, decide_eq_false h9, decide_eq_false h10, decide_eq_false h11, decide_eq_false h12, decide_eq_false h13, decide_eq_false h14, decide_eq_false h15, decide_eq_false h16, decide_eq_false h17, decide_eq_false hA, decide_eq_false hB,
      decide_eq_true h18, Option.map_some', Option.some.injEq] at h
    exact h
  rw [if_neg h18]
  by_cases h19 : sufIn <:+ key
  · rw [if_pos h19]
    have hA : ¬ sufContainsAny <:+ key := not_suffix_of_longer h19 (by decide) (by decide)
    have hB : ¬ sufContainsAll <:+ key := not_suffix_of_longer h19 (by decide) (by decide)
    simp only [specSuffixTable, List.find?, decide_eq_false h1, decide_eq_false h2, decide_eq_false h3, decide_eq_false h4, decide_eq_false h5, decide_eq_false h6, decide_eq_false h7, decide_eq_false h8, decide_eq_false h9, decide_eq_false h10, decide_eq_false h11, decide_eq_false h12, decide_eq_false h13, decide_eq_false h14, decide_eq_false h15, decide_eq_false h16, decide_eq_false h17, decide_eq_false h18, decide_eq_false hA, decide_eq_false hB,
      decide_eq_true h19, Option.map_some', Option.some.injEq] at h
    exact h
  rw [if_neg h19]
  by_cases h20 : sufContainsAny <:+ key ∨ sufContainsAll <:+ key
  · rw [if_pos h20]
    by_cases hA : sufContainsAny <:+ key
    · simp only [specSuffixTable, List.find?, decide_eq_false h1, decide_eq_false h2, decide_eq_false h3, decide_eq_false h4, decide_eq_false h5, decide_eq_false h6, decide_eq_false h7, decide_eq_false h8, decide_eq_false h9, decide_eq_false h10, decide_eq_false h11, decide_eq_false h12, decide_eq_false h13, decide_eq_false h14, decide_eq_false h15, decide_eq_false h16, decide_eq_false h17, decide_eq_false h18, decide_eq_false h19,
        decide_eq_true hA, Option.map_some', Option.some.injEq] at h
      exact h
    · have hB : sufContainsAll <:+ key := by
        rcases h20 with hx | hx
        · exact absurd hx hA
        · exact hx
      simp only [specSuffixTable, List.find?, decide_eq_false h1, decide_eq_false h2, decide_eq_false h3, decide_eq_false h4, decide_eq_false h5, decide_eq_false h6, decide_eq_false h7, decide_eq_false h8, decide_eq_false h9, decide_eq_false h10, decide_eq_false h11, decide_eq_false h12, decide_eq_false h13, decide_eq_false h14, decide_eq_false h15, decide_eq_false h16, decide_eq_false h17, decide_eq_false h18, decide_eq_false h19,
        decide_eq_false hA, decide_eq_true hB, Option.map_some', Option.some.injEq] at h
      exact h
  have hA : ¬ sufContainsAny <:+ key := fun hx => h20 (Or.inl hx)
  have hB : ¬ sufContainsAll <:+ key := fun hx => h20 (Or.inr hx)
  simp only [specSuffixTable, List.find?, decide_eq_false h1, decide_eq_false h2, decide_eq_false h3, decide_eq_false h4, decide_eq_false h5, decide_eq_false h6, decide_eq_false h7, decide_eq_false h8, decide_eq_false h9, decide_eq_false h10, decide_eq_false h11, decide_eq_false h12, decide_eq_false h13, decide_eq_false h14, decide_eq_false h15, decide_eq_false h16, decide_eq_false h17, decide_eq_false h18, decide_eq_false h19,
    decide_eq_false hA, decide_eq_false hB, Option.map_none'] at h
  exact absurd h (by simp)

/-- Witness for C1 at the path `name_not_contains_nocase` (the longest
applicable suffix is `_not_contains_nocase`, never `_contains`): the result
is `_not: {name: {_ilike: "%x%"}}`. -/
theorem C1_suffix_table_longest_match_witness :
    convert_basic_filter_to_hasura_condition ("name_not_contains_nocase".data)
      ("\x22x\x22".data) [] [] = .ok ("_not: \x7bname: \x7b_ilike: \x22%x%\x22\x7d\x7d".data) :=
  C1_suffix_table_longest_match ("name_not_contains_nocase".data) ("\x22x\x22".data) [] []
    (.ok ("_not: \x7bname: \x7b_ilike: \x22%x%\x22\x7d\x7d".data)) (by decide)

/-- C2 counterexample: the claim says a no-suffix field absent from both
field sets — including when the classifier was given no selection context
and both sets are empty — compiles to the reference-by-identifier
`field: {id: {_eq: v}}`.  At `key = "pair"`, `value = "0"` (a simple
scalar) with both sets empty, the code emits the ordinary equality
`pair: {_eq: "0"}` instead. -/
theorem C2_no_suffix_counterexample :
    convert_basic_filter_to_hasura_condition ("pair".data) ("\x220\x22".data) [] [] =
        .ok (fmtEq ("pair".data) ("\x220\x22".data))
      ∧ is_simple_scalar ("\x220\x22".data) = true
      ∧ ("pair".data ∉ ([] : List Str) ∧ "pair".data ∉ ([] : List Str))
      ∧ convert_basic_filter_to_hasura_condition ("pair".data) ("\x220\x22".data) [] []
          ≠ .ok (fmtIdRef ("pair".data) ("\x220\x22".data)) := by
  refine ⟨by decide, by decide, ⟨by decide, by decide⟩, by decide⟩

/-- C2 (amended): for a no-suffix path other than `where`, `chainId` always
compiles to plain scalar equality; any other field compiles to the
reference-by-identifier `field: {id: {_eq: v}}` exactly when the value is a
simple scalar and either the field is in `nestedFields`, or the two field
sets are **not both empty** and the field is in neither set; in every other
case — in particular whenever both sets are empty (no selection context) —
it compiles to the ordinary equality `field: {_eq: v}`. -/
theorem C2_no_suffix_heuristic (key value : Str) (ns rs : List Str)
    (hnosuf : ∀ s ∈ specSuffixTable.map Prod.fst, ¬ s <:+ key) (hW : key ≠ kWhere) :
    convert_basic_filter_to_hasura_condition key value ns rs =
      .ok (if key = kChainId then fmtEq key value
        else if is_simple_scalar value
            ∧ (key ∈ ns ∨ (¬ (ns = [] ∧ rs = []) ∧ key ∉ rs ∧ key ∉ ns)) then
          fmtIdRef key value
        else fmtEq key value) := by
  have n1 : ¬ sufNotStartsWithNocase <:+ key := hnosuf _ (by decide)
  have n2 : ¬ sufNotEndsWithNocase <:+ key := hnosuf _ (by decide)
  have n3 : ¬ sufNotContainsNocase <:+ key := hnosuf _ (by decide)
  have n4 : ¬ sufStartsWithNocase <:+ key := hnosuf _ (by decide)
  have n5 : ¬ sufEndsWithNocase <:+ key := hnosuf _ (by decide)
  have n6 : ¬ sufContainsNocase <:+ key := hnosuf _ (by decide)
  have n7 : ¬ sufNotStartsWith <:+ key := hnosuf _ (by decide)
  have n8 : ¬ sufNotEndsWith <:+ key := hnosuf _ (by decide)
  have n9 : ¬ sufNotContains <:+ key := hnosuf _ (by decide)
  have n10 : ¬ sufStartsWith <:+ key := hnosuf _ (by decide)
  have n11 : ¬ sufEndsWith <:+ key := hnosuf _ (by decide)
  have n12 : ¬ sufContains <:+ key := hnosuf _ (by decide)
  have n13 : ¬ sufNotIn <:+ key := hnosuf _ (by decide)
  have n14 : ¬ sufGte <:+ key := hnosuf _ (by decide)
  have n15 : ¬ sufLte <:+ key := hnosuf _ (by decide)
  have n16 : ¬ sufNot <:+ key := hnosuf _ (by decide)
  have n17 : ¬ sufGt <:+ key := hnosuf _ (by decide)
  have n18 : ¬ sufLt <:+ key := hnosuf _ (by decide)
  have n19 : ¬ sufIn <:+ key := hnosuf _ (by decide)
  have nA : ¬ sufContainsAny <:+ key := hnosuf _ (by decide)
  have nB : ¬ sufContainsAll <:+ key := hnosuf _ (by decide)
  unfold convert_basic_filter_to_hasura_condition
  rw [if_neg hW, if_neg n1, if_neg n2, if_neg n3, if_neg n4, if_neg n5, if_neg n6, if_neg n7,
    if_neg n8, if_neg n9, if_neg n10, if_neg n11, if_neg n12, if_neg n13, if_neg n14, if_neg n15,
    if_neg n16, if_neg n17, if_neg n18, if_neg n19]
  rw [if_neg (fun hx => hx.elim nA nB)]
  split_ifs <;> rfl

/-- Witness for C2 (amended) at `key = "token"` selected as a regular field
(`rs = ["token"]`): ordinary equality, not a reference-by-identifier. -/
theorem C2_no_suffix_heuristic_witness :
    convert_basic_filter_to_hasura_condition ("token".data) ("\x220\x22".data) []
      [("token".data)] = .ok (fmtEq ("token".data) ("\x220\x22".data)) := by
  have h := C2_no_suffix_heuristic ("token".data) ("\x220\x22".data) [] [("token".data)]
    (by decide) (by decide)
  rw [h]
  decide

/- ------------------------------------------------------------------ -/
/- Parser totality (C10) and key-uniqueness of parsed maps.            -/
/- ------------------------------------------------------------------ -/

/-- The keys of an argument map are pairwise distinct. -/
def keysNoDup (m : PMap) : Prop := (m.map Prod.fst).Nodup

theorem insertP_keys_nodup (m : PMap) (k v : Str) (h : keysNoDup m) :
    keysNoDup (insertP m k v) := by
  unfold insertP
  split_ifs with hc
  · have hkeys : (m.map (fun kv => if kv.1 = k then (k, v) else kv)).map Prod.fst
        = m.map Prod.fst := by
      rw [List.map_map]
      apply List.map_congr_left
      intro kv _
      by_cases hx : kv.1 = k
      · simp [hx]
      · simp [hx]
    unfold keysNoDup
    rw [hkeys]
    exact h
  · have hnk : k ∉ m.map Prod.fst := by
      intro hmem
      rcases List.mem_map.mp hmem with ⟨kv, hkv, hfst⟩
      have : containsKeyP m k = true := by
        unfold containsKeyP
        rw [List.any_eq_true]
        exact ⟨kv, hkv, by simp [hfst]⟩
      exact hc this
    unfold keysNoDup
    rw [List.map_append]
    simp only [List.map_cons, List.map_nil]
    exact List.Nodup.append h (List.nodup_singleton k)
      (by intro a ha hb; simp at hb; subst hb; exact hnk ha)

theorem insertAllP_keys_nodup (m l : PMap) (h : keysNoDup m) : keysNoDup (insertAllP m l) := by
  unfold insertAllP
  induction l generalizing m with
  | nil => exact h
  | cons kv t ih =>
    simp only [List.foldl_cons]
    exact ih _ (insertP_keys_nodup _ _ _ h)

theorem dotted_foldl_keys_nodup (l : PMap) (key : Str) (m : PMap) (h : keysNoDup m) :
    keysNoDup (l.foldl (fun acc kv => insertP acc (key ++ kDot ++ kv.1) kv.2) m) := by
  induction l generalizing m with
  | nil => exact h
  | cons kv t ih =>
    simp only [List.foldl_cons]
    exact ih _ (insertP_keys_nodup _ _ _ h)

set_option maxHeartbeats 1000000 in
/-- The character loop returns `Ok` and preserves key uniqueness, given
that `parse_single_param` does so on all segments within the budget. -/
theorem parseParamsAux_ok_nodup (rest : Str) :
    ∀ (cur : Str) (b k : Int) (i e : Bool) (m : PMap),
    (∀ p' m', p'.length ≤ rest.length + cur.length →
      ∃ r, parse_single_param p' m' = .ok r ∧ (keysNoDup m' → keysNoDup r)) →
    ∃ r, parseParamsAux rest cur b k i e m = .ok r ∧ (keysNoDup m → keysNoDup r) := by
  induction rest with
  | nil =>
    intro cur b k i e m hs
    rw [parseParamsAux]
    split_ifs with h0
    · exact ⟨m, rfl, id⟩
    · exact hs cur m (by simp)
  | cons ch t ih =>
    intro cur b k i e m hs
    obtain ⟨r1, hr1, hn1⟩ := hs cur m (by simp only [List.length_cons]; omega)
    have hrec : ∀ (cur' : Str) (b' k' : Int) (i' e' : Bool) (m' : PMap),
        cur'.length ≤ cur.length + 1 →
        ∃ r, parseParamsAux t cur' b' k' i' e' m' = .ok r ∧ (keysNoDup m' → keysNoDup r) := by
      intro cur' b' k' i' e' m' hc
      refine ih cur' b' k' i' e' m' ?_
      intro p' m'' hp'
      refine hs p' m'' ?_
      simp only [List.length_cons] at hp' ⊢
      omega
    rw [parseParamsAux]
    by_cases hc1 : e = true
    · rw [if_pos hc1]
      exact hrec _ _ _ _ _ m (by simp only [List.length_append, List.length_cons, List.length_nil]; omega)
    rw [if_neg hc1]
    by_cases hc2 : ch = '\\'
    · rw [if_pos hc2]
      exact hrec _ _ _ _ _ m (by simp only [List.length_append, List.length_cons, List.length_nil]; omega)
    rw [if_neg hc2]
    by_cases hc3 : ch = quoteC
    · rw [if_pos hc3]
      exact hrec _ _ _ _ _ m (by simp only [List.length_append, List.length_cons, List.length_nil]; omega)
    rw [if_neg hc3]
    by_cases hc4 : i = true
    · rw [if_pos hc4]
      exact hrec _ _ _ _ _ m (by simp only [List.length_append, List.length_cons, List.length_nil]; omega)
    rw [if_neg hc4]
    by_cases hc5 : ch = braceOpenC
    · rw [if_pos hc5]
      exact hrec _ _ _ _ _ m (by simp only [List.length_append, List.length_cons, List.length_nil]; omega)
    rw [if_neg hc5]
    by_cases hc6 : ch = braceCloseC
    · rw [if_pos hc6]
      exact hrec _ _ _ _ _ m (by simp only [List.length_append, List.length_cons, List.length_nil]; omega)
    rw [if_neg hc6]
    by_cases hc7 : ch = '['
    · rw [if_pos hc7]
      exact hrec _ _ _ _ _ m (by simp only [List.length_append, List.length_cons, List.length_nil]; omega)
    rw [if_neg hc7]
    by_cases hc8 : ch = ']'
    · rw [if_pos hc8]
      exact hrec _ _ _ _ _ m (by simp only [List.length_append, List.length_cons, List.length_nil]; omega)
    rw [if_neg hc8]
    by_cases hc9 : ch = ','
    · rw [if_pos hc9]
      by_cases hc10 : b = 0 ∧ k = 0
      · rw [if_pos hc10]
        rw [hr1]
        obtain ⟨r2, hr2, hn2⟩ := hrec [] b k i false r1 (by simp only [List.length_nil]; omega)
        exact ⟨r2, hr2, fun hm => hn2 (hn1 hm)⟩
      · rw [if_neg hc10]
        exact hrec _ _ _ _ _ m (by simp only [List.length_append, List.length_cons, List.length_nil]; omega)
    rw [if_neg hc9]
    by_cases hc11 : ch = nlC ∨ ch = '\x0d'
    · rw [if_pos hc11]
      by_cases hc12 : b = 0 ∧ k = 0
      · rw [if_pos hc12]
        by_cases hc13 : isParamStart t = true
        · rw [if_pos hc13]
          by_cases hc14 : trimWs cur = []
          · rw [if_pos hc14]
            exact hrec _ _ _ _ _ m (by simp only [List.length_append, List.length_cons, List.length_nil]; omega)
          · rw [if_neg hc14]
            rw [hr1]
            obtain ⟨r2, hr2, hn2⟩ := hrec [] b k i false r1 (by simp only [List.length_nil]; omega)
            exact ⟨r2, hr2, fun hm => hn2 (hn1 hm)⟩
        · rw [if_neg hc13]
          exact hrec _ _ _ _ _ m (by simp only [List.length_append, List.length_cons, List.length_nil]; omega)
      · rw [if_neg hc12]
        exact hrec _ _ _ _ _ m (by simp only [List.length_append, List.length_cons, List.length_nil]; omega)
    rw [if_neg hc11]
    exact hrec _ _ _ _ _ m (by simp only [List.length_append, List.length_cons, List.length_nil]; omega)


theorem parse_graphql_params_ok_nodup_aux (s : Str) (m : PMap)
    (hs : ∀ p' m', p'.length ≤ s.length →
      ∃ r, parse_single_param p' m' = .ok r ∧ (keysNoDup m' → keysNoDup r)) :
    ∃ r, parse_graphql_params s m = .ok r ∧ (keysNoDup m → keysNoDup r) := by
  rw [parse_graphql_params]
  exact parseParamsAux_ok_nodup s [] 0 0 false false m
    (by intro p' m' hp'; exact hs p' m' (by simpa using hp'))

/-- `parse_single_param` always returns `Ok` and preserves key
uniqueness. -/
theorem parse_single_param_ok_nodup : ∀ (p : Str) (m : PMap),
    ∃ r, parse_single_param p m = .ok r ∧ (keysNoDup m → keysNoDup r) := by
  suffices H : ∀ (n : Nat) (p : Str) (m : PMap), p.length ≤ n →
      ∃ r, parse_single_param p m = .ok r ∧ (keysNoDup m → keysNoDup r) by
    exact fun p m => H p.length p m le_rfl
  intro n
  induction n using Nat.strong_induction_on with
  | _ n ih =>
    intro p m hp
    simp only [parse_single_param]
    cases hidx : List.findIdx? (fun c => decide (c = ':')) (trimWs p) with
    | none => exact ⟨m, rfl, id⟩
    | some idx =>
      dsimp only
      split_ifs with hbr hkw
      all_goals try
        (first
          | exact ⟨_, rfl, fun hm => insertP_keys_nodup _ _ _ hm⟩)
      all_goals
        (have hnlt : ((trimWs (List.drop (idx + 1) (trimWs p))).drop 1).dropLast.length
            < p.length := by
          have hvpos : 0 < (trimWs (List.drop (idx + 1) (trimWs p))).length := by
            refine List.length_pos.mpr ?_
            intro hx
            rw [hx] at hbr
            simp at hbr
          have hvlen : (trimWs (List.drop (idx + 1) (trimWs p))).length ≤ p.length := by
            calc (trimWs (List.drop (idx + 1) (trimWs p))).length
                ≤ (List.drop (idx + 1) (trimWs p)).length := trimWs_length_le _
              _ ≤ (trimWs p).length := by rw [List.length_drop]; omega
              _ ≤ p.length := trimWs_length_le _
          simp only [List.length_dropLast, List.length_drop]
          omega)
      · obtain ⟨r1, hr1, hn1⟩ := parse_graphql_params_ok_nodup_aux
          ((trimWs (List.drop (idx + 1) (trimWs p))).drop 1).dropLast []
          (by
            intro p' m' hp'
            exact ih p'.length (by omega) p' m' le_rfl)
        rw [hr1]
        exact ⟨insertAllP m r1, rfl, fun hm => insertAllP_keys_nodup m r1 hm⟩
      · obtain ⟨r1, hr1, hn1⟩ := parse_graphql_params_ok_nodup_aux
          ((trimWs (List.drop (idx + 1) (trimWs p))).drop 1).dropLast []
          (by
            intro p' m' hp'
            exact ih p'.length (by omega) p' m' le_rfl)
        rw [hr1]
        exact ⟨_, rfl, fun hm => dotted_foldl_keys_nodup r1 _ m hm⟩

/-- `parse_graphql_params` always returns `Ok` and preserves key
uniqueness. -/
theorem parse_graphql_params_ok_nodup (s : Str) (m : PMap) :
    ∃ r, parse_graphql_params s m = .ok r ∧ (keysNoDup m → keysNoDup r) :=
  parse_graphql_params_ok_nodup_aux s m (fun p' m' _ => parse_single_param_ok_nodup p' m')

/-- C10: the argument parser is total — `parse_graphql_params` and
`parse_single_param` return `Ok` on every input — and a parameter segment
without a colon is silently discarded, leaving the map unchanged. -/
theorem C10_parser_total :
    (∀ s m, ∃ r, parse_graphql_params s m = .ok r)
    ∧ (∀ p m, ∃ r, parse_single_param p m = .ok r)
    ∧ (∀ p m, List.findIdx? (fun c => decide (c = ':')) (trimWs p) = none →
        parse_single_param p m = .ok m) := by
  refine ⟨?_, ?_, ?_⟩
  · intro s m
    obtain ⟨r, hr, _⟩ := parse_graphql_params_ok_nodup s m
    exact ⟨r, hr⟩
  · intro p m
    obtain ⟨r, hr, _⟩ := parse_single_param_ok_nodup p m
    exact ⟨r, hr⟩
  · intro p m hnone
    simp only [parse_single_param]
    rw [hnone]

/-- Witness for C10: the colon-free segment `"abc"` is discarded and the
parse succeeds with the map unchanged. -/
theorem C10_parser_total_witness :
    parse_single_param ("abc".data) [] = .ok [] :=
  C10_parser_total.2.2 ("abc".data) [] (by decide)

/- ------------------------------------------------------------------ -/
/- Entity extraction is total (C3).                                    -/
/- ------------------------------------------------------------------ -/

theorem extractEntitiesAux_ok : ∀ s : Str, ∃ es, extractEntitiesAux s = .ok es := by
  suffices H : ∀ (n : Nat) (s : Str), s.length ≤ n → ∃ es, extractEntitiesAux s = .ok es by
    exact fun s => H s.length s le_rfl
  intro n
  induction n using Nat.strong_induction_on with
  | _ n ih =>
    intro s hsn
    rw [extractEntitiesAux]
    cases hs1 : s.dropWhile isWs with
    | nil => exact ⟨[], rfl⟩
    | cons c t =>
      dsimp only
      have hds : (List.dropWhile isWs s).length ≤ s.length := length_dropWhileP_le _ _
      rw [hs1] at hds
      simp only [List.length_cons] at hds
      have hdan : (List.dropWhile isAlnumC (c :: t)).length ≤ t.length + 1 := by
        have h0 := length_dropWhileP_le isAlnumC (c :: t)
        simpa using h0
      have hdws : (List.dropWhile isWs (List.dropWhile isAlnumC (c :: t))).length
          ≤ (List.dropWhile isAlnumC (c :: t)).length := length_dropWhileP_le _ _
      have htl1 := List.length_tail (List.dropWhile isAlnumC (c :: t))
      have htl2 := List.length_tail (List.dropWhile isWs (List.dropWhile isAlnumC (c :: t)))
      by_cases hname : (c :: t).takeWhile isAlnumC = []
      · rw [dif_pos hname]
        exact ih t.length (by omega) t le_rfl
      rw [dif_neg hname]
      by_cases hsw : ((c :: t).takeWhile isAlnumC).length < 2
          ∨ (c :: t).takeWhile isAlnumC ∈ stopWords
      · rw [if_pos hsw]
        exact ih (List.dropWhile isAlnumC (c :: t)).tail.length (by omega) _ le_rfl
      rw [if_neg hsw]
      by_cases hpar : (List.dropWhile isWs (List.dropWhile isAlnumC (c :: t))).head? = some '('
      · rw [dif_pos hpar]
        cases hscan : scanDelim '(' ')'
            (List.dropWhile isWs (List.dropWhile isAlnumC (c :: t))).tail 1 with
        | none => exact ⟨[], rfl⟩
        | some pr =>
          obtain ⟨params_str, rest1⟩ := pr
          dsimp only
          have hr1 := scanDelim_snd_length_le '(' ')' _ 1 _ hscan
          simp only at hr1
          obtain ⟨pm, hpm, _⟩ := parse_graphql_params_ok_nodup params_str []
          rw [hpm]
          dsimp only
          have hdr1 : (List.dropWhile isWs rest1).length ≤ rest1.length := length_dropWhileP_le _ _
          have htl3 := List.length_tail (List.dropWhile isWs rest1)
          by_cases hbr : (List.dropWhile isWs rest1).head? = some braceOpenC
          · rw [dif_pos hbr]
            cases hscan2 : scanDelim braceOpenC braceCloseC (List.dropWhile isWs rest1).tail 1 with
            | none => exact ⟨[], rfl⟩
            | some pr2 =>
              obtain ⟨raw_selection, rest2⟩ := pr2
              dsimp only
              have hr2 := scanDelim_snd_length_le braceOpenC braceCloseC _ 1 _ hscan2
              simp only at hr2
              obtain ⟨es, hes⟩ := ih rest2.length (by omega) rest2 le_rfl
              rw [hes]
              exact ⟨_, rfl⟩
          · rw [dif_neg hbr]
            exact ih (List.dropWhile isWs rest1).tail.length (by omega) _ le_rfl
      rw [dif_neg hpar]
      by_cases hbr2 : (List.dropWhile isWs (List.dropWhile isAlnumC (c :: t))).head? = some braceOpenC
      · rw [dif_pos hbr2]
        cases hscan3 : scanDelim braceOpenC braceCloseC
            (List.dropWhile isWs (List.dropWhile isAlnumC (c :: t))).tail 1 with
        | none => exact ⟨[], rfl⟩
        | some pr3 =>
          obtain ⟨raw_selection, rest2⟩ := pr3
          dsimp only
          have hr3 := scanDelim_snd_length_le braceOpenC braceCloseC _ 1 _ hscan3
          simp only at hr3
          obtain ⟨es, hes⟩ := ih rest2.length (by omega) rest2 le_rfl
          rw [hes]
          exact ⟨_, rfl⟩
      rw [dif_neg hbr2]
      exact ih (List.dropWhile isWs (List.dropWhile isAlnumC (c :: t))).tail.length (by omega) _ le_rfl

/-- C3: the claim says an input with unbalanced delimiters makes translation
fail with `InvalidQueryFormat`. The code does the opposite: entity
extraction never returns an error at all — when end-of-text is reached
before an opened `(` or `{` closes, the scan `break`s and the unterminated
entity is silently dropped, so extraction succeeds with the entities
collected so far (amended statement). -/
theorem C3_unbalanced_extraction_succeeds :
    ∀ q : Str, ∃ es, extract_multiple_entities q = .ok es := by
  intro q
  cases hq : q.dropWhile isWs with
  | nil => exact ⟨[], by simp only [extract_multiple_entities, hq]⟩
  | cons c t =>
    by_cases hc : c = braceOpenC
    · obtain ⟨es, hes⟩ := extractEntitiesAux_ok t
      exact ⟨es, by simp only [extract_multiple_entities, hq, if_pos hc]; exact hes⟩
    · obtain ⟨es, hes⟩ := extractEntitiesAux_ok (c :: t)
      exact ⟨es, by simp only [extract_multiple_entities, hq, if_neg hc]; exact hes⟩

set_option maxHeartbeats 3200000 in
/-- C3 counterexample: the concrete query `query \x7b streams(first: 10`
has an unbalanced `\x7b` and an unbalanced `(`, yet the full translation
succeeds (with an empty entity list) instead of failing with
`InvalidQueryFormat`. -/
theorem C3_unbalanced_counterexample :
    convert_query_structure 1 ("query \x7b streams(first: 10".data) none =
      some (.ok ("query \x7b\n\n\x7d".data)) := by
  simp +decide [convert_query_structure, convert_meta_query, containsSub, findSubIdx,
    extract_fragments_and_main_query, fragLoop, fragStep, convert_main_query,
    extract_multiple_entities, extractEntitiesAux, scanDelim, parse_graphql_params,
    parseParamsAux, parse_single_param, isParamStart, paramColonScan, convertEntityInvocation,
    convert_filters_to_where_clause, whereConditionsList, cleanedFlatFilters, flatten_where_map,
    flattenWhereAux, pmapWeight, parse_nested_where_clause, groupByBase, upsertGroup,
    basicFilterPairs, groupNestedFilters, upsertNestedGroup, baseFieldName, lookupGroup,
    emitBasicFilters, emitGrouped, process_nested_filters_recursive, lookupFI, insertFI,
    extract_field_info_from_selection_recursive, fieldInfoLoop, fieldBraceScan, isFieldChar,
    convert_basic_filter_to_hasura_condition, is_simple_scalar, singularize_and_capitalize,
    capitalizeFirst, sanitize_selection_set, sanitize_selection_set_aux, skipParensArgs,
    sanitize_fragment_arguments, insertP, insertAllP, containsKeyP, lookupP, removeKeyP, insertS,
    trimWs, trimStart, trimEnd, trimStartMatches, trimEndMatches, trimMatchesChar, isWs,
    isAlnumC, rfindIdx, joinComma, joinNl, wrapBrace, fmtAndBlock, fmtIlike, fmtNotIlike, fmtOp,
    fmtEq, fmtIdRef, lexLe, chainIdLe, chainIdLeP, List.dropWhile, List.takeWhile, List.findIdx?,
    List.intercalate, List.intersperse, List.insertionSort, List.orderedInsert,
    List.mapM, List.mapM.loop, stopWords]

/-- C4: the claim says the fragment-scanning loop terminates on every input,
stopping defensively when a `fragment ` token has no following `\x7b`. In
fact, when the token has a following `\x7b` but the brace-balanced body
never closes before end-of-text, the loop body leaves both the fragment
accumulator and the remaining text unchanged and loops again, so the scan
spins forever: for the input `fragment F on T \x7b id` no iteration bound
makes it terminate. -/
theorem C4_fragment_loop_diverges :
    ∀ n : Nat,
      extract_fragments_and_main_query n ("fragment F on T \x7b id".data) = none := by
  have hstep : fragStep [] ("fragment F on T \x7b id".data) =
      .next [] ("fragment F on T \x7b id".data) := rfl
  intro n
  induction n with
  | zero => rfl
  | succ m ih =>
    show fragLoop (m + 1) [] ("fragment F on T \x7b id".data) = none
    rw [fragLoop, hstep]
    exact ih

/-- C5: the primary-key shortcut: when the entity name does not end in `s`
and its argument map is exactly one entry keyed `id` with value `v`, the
assembler emits `<entity>_by_pk(id: <v>) <selection>` — no capitalization,
no `where`, no pagination — and the same text whatever chain id (including
none) was supplied. -/
theorem C5_primary_key_shortcut (entity v selection : Str) (chain_id : Option Str)
    (hs : ¬ (['s'] <:+ entity)) :
    convertEntityInvocation chain_id (entity, [(kId, v)], selection) =
      .ok (kIndent ++ entity ++ kByPkOpen ++ v ++ [')', ' '] ++ selection) := by
  simp only [convertEntityInvocation]
  rw [if_pos ⟨hs, rfl, rfl⟩]
  rfl

/-- C5 witness. -/
theorem C5_primary_key_shortcut_witness :
    convertEntityInvocation (some ("1".data))
        ("stream".data, [(kId, "\x22123\x22".data)], "\x7b id name \x7d".data) =
      .ok (kIndent ++ "stream".data ++ kByPkOpen ++ "\x22123\x22".data ++ [')', ' ']
        ++ "\x7b id name \x7d".data) :=
  C5_primary_key_shortcut ("stream".data) ("\x22123\x22".data) ("\x7b id name \x7d".data)
    (some ("1".data)) (by decide)

/- Helper lemmas about `insertP`/`insertAllP` on duplicate-free maps. -/

theorem containsKeyP_eq_false_iff (m : PMap) (k : Str) :
    containsKeyP m k = false ↔ k ∉ m.map Prod.fst := by
  simp only [containsKeyP, List.any_eq_false, List.mem_map, decide_eq_true_eq]
  constructor
  · rintro h ⟨kv, hkv, hk⟩
    exact h kv hkv hk
  · intro h kv hkv hk
    exact h ⟨kv, hkv, hk⟩

theorem insertP_of_not_mem (m : PMap) (k v : Str) (h : containsKeyP m k = false) :
    insertP m k v = m ++ [(k, v)] := by
  simp only [insertP, h]
  rfl

theorem insertAllP_append_of_nodup :
    ∀ (L m : PMap), keysNoDup (m ++ L) → insertAllP m L = m ++ L := by
  intro L
  induction L with
  | nil => intro m _; simp [insertAllP]
  | cons kv t ih =>
    intro m hnd
    obtain ⟨k, v⟩ := kv
    have hkeys : ((m ++ (k, v) :: t).map Prod.fst).Nodup := hnd
    rw [List.map_append] at hkeys
    have hnotin : k ∉ m.map Prod.fst := by
      have hdisj := (List.nodup_append.mp hkeys).2.2
      intro hmem
      exact hdisj hmem (by simp)
    have hins : insertP m k v = m ++ [(k, v)] :=
      insertP_of_not_mem m k v ((containsKeyP_eq_false_iff m k).mpr hnotin)
    have hstep : insertAllP m ((k, v) :: t) = insertAllP (m ++ [(k, v)]) t := by
      simp only [insertAllP, List.foldl_cons, hins]
    rw [hstep, ih (m ++ [(k, v)]) (by simpa using hnd)]
    simp

theorem insertAllP_nil_of_nodup (L : PMap) (h : keysNoDup L) : insertAllP [] L = L := by
  simpa using insertAllP_append_of_nodup L [] (by simpa [keysNoDup] using h)

theorem trimEnd_append_singleton (l : Str) (c : Char) (h : isWs c = false) :
    trimEnd (l ++ [c]) = l ++ [c] := by
  simp [trimEnd, List.dropWhile, h]

theorem parse_where_wrapped (s : Str) :
    parse_single_param (kWhere ++ kColonSpace ++ [braceOpenC] ++ s ++ [braceCloseC]) [] =
      parse_graphql_params s [] := by
  rw [parse_single_param]
  have h1 : trimWs (kWhere ++ kColonSpace ++ [braceOpenC] ++ s ++ [braceCloseC]) =
      kWhere ++ kColonSpace ++ [braceOpenC] ++ s ++ [braceCloseC] := by
    show trimEnd (trimStart _) = _
    have hts : trimStart (kWhere ++ kColonSpace ++ [braceOpenC] ++ s ++ [braceCloseC]) =
        kWhere ++ kColonSpace ++ [braceOpenC] ++ s ++ [braceCloseC] := rfl
    rw [hts]
    exact trimEnd_append_singleton _ _ (by decide)
  rw [h1]
  have h2 : List.findIdx? (fun c => decide (c = ':'))
      (kWhere ++ kColonSpace ++ [braceOpenC] ++ s ++ [braceCloseC]) = some 5 := rfl
  rw [h2]
  dsimp only
  have h3 : trimWs ((kWhere ++ kColonSpace ++ [braceOpenC] ++ s ++ [braceCloseC]).take 5) =
      kWhere := rfl
  have h4 : (kWhere ++ kColonSpace ++ [braceOpenC] ++ s ++ [braceCloseC]).drop (5 + 1) =
      ' ' :: braceOpenC :: (s ++ [braceCloseC]) := rfl
  rw [h3, h4]
  have h5 : trimWs (' ' :: braceOpenC :: (s ++ [braceCloseC])) =
      braceOpenC :: (s ++ [braceCloseC]) := by
    show trimEnd (trimStart _) = _
    have hts : trimStart (' ' :: braceOpenC :: (s ++ [braceCloseC])) =
        braceOpenC :: (s ++ [braceCloseC]) := rfl
    rw [hts]
    have := trimEnd_append_singleton (braceOpenC :: s) braceCloseC (by decide)
    simpa using this
  rw [h5]
  have hlast : (braceOpenC :: (s ++ [braceCloseC])).getLast? = some braceCloseC := by
    have : ((braceOpenC :: s) ++ [braceCloseC]).getLast? = some braceCloseC :=
      List.getLast?_concat _
    simpa using this
  rw [dif_pos ⟨rfl, hlast⟩, if_pos rfl]
  have h6 : ((braceOpenC :: (s ++ [braceCloseC])).drop 1).dropLast = s := by
    show (s ++ [braceCloseC]).dropLast = s
    exact List.dropLast_concat
  rw [h6]
  obtain ⟨pm, hpm, hnd⟩ := parse_graphql_params_ok_nodup s []
  rw [hpm]
  dsimp only
  rw [insertAllP_nil_of_nodup pm (hnd (by simp [keysNoDup]))]

set_option maxHeartbeats 1600000 in
/-- C6: filters wrapped in a top-level `where` object normalize to the same
flattened argument map as the same filters passed directly: splicing a
`where: \x7b...\x7d` segment into an empty map equals parsing the wrapped
text as a direct argument list, and the spec's example — the nested object
`where: \x7ba: \x7bb: \x22x\x22\x7d\x7d` versus the pre-flattened dotted
path `a.b: \x22x\x22` — parses to the identical one-entry map, so the rest
of the pipeline (a function of that map) produces identical output. -/
theorem C6_where_wrapping_equivalent :
    (∀ s : Str,
      parse_single_param (kWhere ++ kColonSpace ++ [braceOpenC] ++ s ++ [braceCloseC]) [] =
        parse_graphql_params s []) ∧
    parse_graphql_params ("where: \x7ba: \x7bb: \x22x\x22\x7d\x7d".data) [] =
      .ok [("a.b".data, "\x22x\x22".data)] ∧
    parse_graphql_params ("a.b: \x22x\x22".data) [] =
      .ok [("a.b".data, "\x22x\x22".data)] := by
  refine ⟨parse_where_wrapped, ?_, ?_⟩
  · simp +decide [parse_graphql_params, parseParamsAux, parse_single_param, isParamStart,
      paramColonScan, insertP, insertAllP, containsKeyP, lookupP, trimWs, trimStart, trimEnd,
      trimStartMatches, trimEndMatches, trimMatchesChar, isWs, List.dropWhile, List.takeWhile,
      List.findIdx?]
  · simp +decide [parse_graphql_params, parseParamsAux, parse_single_param, isParamStart,
      paramColonScan, insertP, insertAllP, containsKeyP, lookupP, trimWs, trimStart, trimEnd,
      trimStartMatches, trimEndMatches, trimMatchesChar, isWs, List.dropWhile, List.takeWhile,
      List.findIdx?]

/-- C7: any raw query text containing `_meta` bypasses entity extraction:
the result is exactly `convert_meta_query`'s — an error `ComplexMetaQuery`
when a disqualifying substring occurs, the fixed metadata translation when
the simple pattern `_meta \x7b block \x7b number \x7d \x7d` occurs, and
`ComplexMetaQuery` for every other `_meta` shape. -/
theorem C7_meta_special_case (q : Str) (cid : Option Str) (fuel : Nat)
    (hm : containsSub q kMeta = true) :
    convert_query_structure fuel q cid =
      some (if complexMetaPatterns.any (fun p => containsSub q p) then
              .error .complexMetaQuery
            else if containsSub q kSimpleMetaPattern then .ok kMetaOutput
            else .error .complexMetaQuery) := by
  simp only [convert_query_structure, convert_meta_query, hm, if_true]

/-- C7 witness: the simple metadata query translates to the fixed text. -/
theorem C7_meta_special_case_witness :
    convert_query_structure 1
        ("query \x7b _meta \x7b block \x7b number \x7d \x7d \x7d".data) none =
      some (.ok kMetaOutput) := by
  have h := C7_meta_special_case
    ("query \x7b _meta \x7b block \x7b number \x7d \x7d \x7d".data) none 1 (by decide)
  rw [h]
  decide

theorem mapM_ok_length {α β : Type} (g : α → Except ConversionError β) :
    ∀ (l : List α) (res : List β), l.mapM g = .ok res → res.length = l.length := by
  intro l
  induction l with
  | nil =>
    intro res h
    rw [List.mapM_nil] at h
    rw [show (pure [] : Except ConversionError (List β)) = .ok [] from rfl] at h
    cases h
    rfl
  | cons a t ih =>
    intro res h
    rw [List.mapM_cons] at h
    cases hga : g a with
    | error e => rw [hga] at h; simp [Bind.bind, Except.bind] at h
    | ok b =>
      rw [hga] at h
      cases hmt : t.mapM g with
      | error e => rw [hmt] at h; simp [Bind.bind, Except.bind] at h
      | ok bs =>
        rw [hmt] at h
        simp only [Bind.bind, Except.bind, pure, Except.pure, Except.ok.injEq] at h
        have hl := ih bs hmt
        rw [← h]
        simp [hl]

theorem emitBasicFilters_spec (ns rs : List Str) :
    ∀ (keys : List Str) (groups : GroupMap) (singles ands : List Str),
      emitBasicFilters keys groups ns rs = .ok (singles, ands) →
      ((∀ f conds, f ∈ keys → (lookupGroup groups f).getD [] = conds → 2 ≤ conds.length →
         ∃ ccs, conds.mapM
             (fun kv => convert_basic_filter_to_hasura_condition kv.1 kv.2 ns rs) = .ok ccs ∧
           ccs.length = conds.length ∧ ∀ c ∈ ccs, wrapBrace c ∈ ands) ∧
       (∀ x ∈ singles, ∃ g kv, g ∈ keys ∧ (lookupGroup groups g).getD [] = [kv] ∧
         convert_basic_filter_to_hasura_condition kv.1 kv.2 ns rs = .ok x)) := by
  intro keys
  induction keys with
  | nil =>
    intro groups singles ands h
    rw [emitBasicFilters] at h
    cases h
    exact ⟨fun f conds hf => absurd hf (List.not_mem_nil f), fun x hx => absurd hx (List.not_mem_nil x)⟩
  | cons k ks ih =>
    intro groups singles ands h
    rw [emitBasicFilters] at h
    rcases hc : (lookupGroup groups k).getD [] with _ | ⟨kv1, _ | ⟨kv2, rest⟩⟩
    · -- empty group: the `_` branch with an empty mapM
      rw [hc] at h
      dsimp only at h
      rw [show (([] : List (Str × Str)).mapM
          (fun kv => convert_basic_filter_to_hasura_condition kv.1 kv.2 ns rs)) =
          .ok [] from rfl] at h
      cases hrec : emitBasicFilters ks groups ns rs with
      | error e => rw [hrec] at h; cases h
      | ok p =>
        obtain ⟨s, a⟩ := p
        rw [hrec] at h
        simp only [List.map_nil, List.nil_append, Except.ok.injEq, Prod.mk.injEq] at h
        obtain ⟨hs, ha⟩ := h
        subst hs; subst ha
        obtain ⟨ih1, ih2⟩ := ih groups s a hrec
        refine ⟨?_, ?_⟩
        · intro f conds hf hfc h2
          rcases List.mem_cons.mp hf with hfk | hfks
          · subst hfk
            rw [hc] at hfc
            subst hfc
            simp at h2
          · exact ih1 f conds hfks hfc h2
        · intro x hx
          obtain ⟨g, kv, hg, hgc, hcomp⟩ := ih2 x hx
          exact ⟨g, kv, List.mem_cons_of_mem _ hg, hgc, hcomp⟩
    · -- singleton group
      rw [hc] at h
      dsimp only at h
      cases hcomp : convert_basic_filter_to_hasura_condition kv1.1 kv1.2 ns rs with
      | error e => rw [hcomp] at h; cases h
      | ok c =>
        rw [hcomp] at h
        cases hrec : emitBasicFilters ks groups ns rs with
        | error e => rw [hrec] at h; cases h
        | ok p =>
          obtain ⟨s, a⟩ := p
          rw [hrec] at h
          simp only [Except.ok.injEq, Prod.mk.injEq] at h
          obtain ⟨hs, ha⟩ := h
          subst hs; subst ha
          obtain ⟨ih1, ih2⟩ := ih groups s a hrec
          refine ⟨?_, ?_⟩
          · intro f conds hf hfc h2
            rcases List.mem_cons.mp hf with hfk | hfks
            · subst hfk
              rw [hc] at hfc
              subst hfc
              simp at h2
            · exact ih1 f conds hfks hfc h2
          · intro x hx
            rcases List.mem_cons.mp hx with hxc | hxs
            · subst hxc
              exact ⟨k, kv1, List.mem_cons_self _ _, hc, hcomp⟩
            · obtain ⟨g, kv, hg, hgc, hcomp2⟩ := ih2 x hxs
              exact ⟨g, kv, List.mem_cons_of_mem _ hg, hgc, hcomp2⟩
    · -- group with at least two conditions
      rw [hc] at h
      dsimp only at h
      cases hm : (kv1 :: kv2 :: rest).mapM
          (fun kv => convert_basic_filter_to_hasura_condition kv.1 kv.2 ns rs) with
      | error e => rw [hm] at h; cases h
      | ok cs =>
        rw [hm] at h
        cases hrec : emitBasicFilters ks groups ns rs with
        | error e => rw [hrec] at h; cases h
        | ok p =>
          obtain ⟨s, a⟩ := p
          rw [hrec] at h
          simp only [Except.ok.injEq, Prod.mk.injEq] at h
          obtain ⟨hs, ha⟩ := h
          subst hs; subst ha
          obtain ⟨ih1, ih2⟩ := ih groups s a hrec
          refine ⟨?_, ?_⟩
          · intro f conds hf hfc h2
            rcases List.mem_cons.mp hf with hfk | hfks
            · subst hfk
              rw [hc] at hfc
              subst hfc
              exact ⟨cs, hm, mapM_ok_length _ _ _ hm,
                fun c hcm => List.mem_append_left _ (List.mem_map_of_mem wrapBrace hcm)⟩
            · obtain ⟨ccs, hccs, hlen, hmem⟩ := ih1 f conds hfks hfc h2
              exact ⟨ccs, hccs, hlen, fun c hcm => List.mem_append_right _ (hmem c hcm)⟩
          · intro x hx
            obtain ⟨g, kv, hg, hgc, hcomp⟩ := ih2 x hx
            exact ⟨g, kv, List.mem_cons_of_mem _ hg, hgc, hcomp⟩

theorem lookupGroup_mem_keys (gs : GroupMap) (f : Str) (conds : List (Str × Str))
    (h : lookupGroup gs f = some conds) : f ∈ gs.map Prod.fst := by
  unfold lookupGroup at h
  rw [Option.map_eq_some'] at h
  obtain ⟨g, hfind, hsnd⟩ := h
  have hmem := List.mem_of_find?_eq_some hfind
  have hpred := List.find?_some hfind
  simp only [decide_eq_true_eq] at hpred
  exact List.mem_map.mpr ⟨g, hmem, hpred⟩

/-- C8: whenever two or more compiled filter conditions share a base field
name (the path before the first `_`), the emitted `where` conditions place
all of that group's conditions, brace-wrapped, inside the single `_and: [...]`
array element, and every top-level sibling condition comes from a base
field with exactly one condition. -/
theorem C8_same_base_grouped (params : PMap) (ns rs : List Str) (info : FieldInfoMap)
    (f : Str) (conds : List (Str × Str)) (cs : List Str)
    (h : whereConditionsList params ns rs info = .ok cs)
    (hg : lookupGroup (groupByBase (basicFilterPairs (cleanedFlatFilters params))) f =
      some conds)
    (h2 : 2 ≤ conds.length) :
    ∃ singles ands nested ccs,
      cs = (singles ++ [fmtAndBlock ands]) ++ nested ∧
      conds.mapM (fun kv => convert_basic_filter_to_hasura_condition kv.1 kv.2 ns rs) =
        .ok ccs ∧
      ccs.length = conds.length ∧
      (∀ c ∈ ccs, wrapBrace c ∈ ands) ∧
      (∀ x ∈ singles, ∃ g kv,
        (lookupGroup (groupByBase (basicFilterPairs (cleanedFlatFilters params))) g).getD []
            = [kv] ∧
        convert_basic_filter_to_hasura_condition kv.1 kv.2 ns rs = .ok x) := by
  simp only [whereConditionsList] at h
  cases hemit : emitBasicFilters
      (List.insertionSort chainIdLeP
        ((groupByBase (basicFilterPairs (cleanedFlatFilters params))).map Prod.fst))
      (groupByBase (basicFilterPairs (cleanedFlatFilters params))) ns rs with
  | error e => rw [hemit] at h; cases h
  | ok p =>
    obtain ⟨singles, ands⟩ := p
    rw [hemit] at h
    dsimp only at h
    cases hnest : (groupNestedFilters (cleanedFlatFilters params)).mapM
        (fun g => process_nested_filters_recursive g.1 g.2 info) with
    | error e => rw [hnest] at h; cases h
    | ok nestedConds =>
      rw [hnest] at h
      dsimp only at h
      obtain ⟨spec1, spec2⟩ := emitBasicFilters_spec ns rs _ _ _ _ hemit
      have hfmem : f ∈ List.insertionSort chainIdLeP
          ((groupByBase (basicFilterPairs (cleanedFlatFilters params))).map Prod.fst) :=
        (List.perm_insertionSort chainIdLeP _).mem_iff.mpr (lookupGroup_mem_keys _ _ _ hg)
      obtain ⟨ccs, hccs, hlen, hmem⟩ :=
        spec1 f conds hfmem (by rw [hg]; rfl) h2
      have hccs_ne : ccs ≠ [] := by
        intro hx
        rw [hx] at hlen
        simp at hlen
        omega
      have hands_ne : ¬ (ands = []) := by
        intro hx
        obtain ⟨c0, hc0⟩ := List.exists_mem_of_ne_nil ccs hccs_ne
        have := hmem c0 hc0
        rw [hx] at this
        exact absurd this (List.not_mem_nil _)
      rw [if_neg hands_ne] at h
      cases h
      exact ⟨singles, ands, nestedConds, ccs, rfl, hccs, hlen, hmem,
        fun x hx => by
          obtain ⟨g, kv, _, hgc, hcomp⟩ := spec2 x hx
          exact ⟨g, kv, hgc, hcomp⟩⟩

/-- C8 witness: `amount_gt`/`amount_lte` end up inside the single `_and`
array, with no top-level sibling conditions. -/
theorem C8_same_base_grouped_witness :
    ∃ singles ands nested ccs,
      [fmtAndBlock [wrapBrace ("amount: \x7b_gt: 100\x7d".data),
          wrapBrace ("amount: \x7b_lte: 1000\x7d".data)]] =
        (singles ++ [fmtAndBlock ands]) ++ nested ∧
      [("amount_gt".data, "100".data), ("amount_lte".data, "1000".data)].mapM
          (fun kv => convert_basic_filter_to_hasura_condition kv.1 kv.2 [] []) = .ok ccs ∧
      ccs.length =
        ([("amount_gt".data, "100".data), ("amount_lte".data, "1000".data)] :
          List (Str × Str)).length ∧
      (∀ c ∈ ccs, wrapBrace c ∈ ands) ∧
      (∀ x ∈ singles, ∃ g kv,
        (lookupGroup (groupByBase (basicFilterPairs (cleanedFlatFilters
            [("amount_gt".data, "100".data), ("amount_lte".data, "1000".data)]))) g).getD []
            = [kv] ∧
        convert_basic_filter_to_hasura_condition kv.1 kv.2 [] [] = .ok x) :=
  C8_same_base_grouped
    [("amount_gt".data, "100".data), ("amount_lte".data, "1000".data)] [] [] []
    ("amount".data)
    [("amount_gt".data, "100".data), ("amount_lte".data, "1000".data)]
    [fmtAndBlock [wrapBrace ("amount: \x7b_gt: 100\x7d".data),
        wrapBrace ("amount: \x7b_lte: 1000\x7d".data)]]
    (by decide) (by decide) (by decide)

theorem lexLe_total : ∀ a b : Str, lexLe a b = true ∨ lexLe b a = true := by
  intro a
  induction a with
  | nil => intro b; left; rfl
  | cons x s ih =>
    intro b
    cases b with
    | nil => right; rfl
    | cons y t =>
      by_cases hxy : x = y
      · subst hxy
        simp only [lexLe, if_pos rfl]
        exact ih t
      · rcases lt_or_gt_of_ne hxy with hlt | hgt
        · left; simp [lexLe, hxy, hlt]
        · right
          have hyx : ¬ y = x := fun h => hxy h.symm
          have hlt : y < x := hgt
          simp [lexLe, hyx, hlt]

theorem lexLe_trans : ∀ a b c : Str,
    lexLe a b = true → lexLe b c = true → lexLe a c = true := by
  intro a
  induction a with
  | nil => intro b c hab hbc; rfl
  | cons x s ih =>
    intro b c hab hbc
    cases b with
    | nil => exact absurd hab (by simp [lexLe])
    | cons y t =>
      cases c with
      | nil => exact absurd hbc (by simp [lexLe])
      | cons z u =>
        simp only [lexLe] at hab hbc ⊢
        by_cases hxy : x = y
        · subst hxy
          rw [if_pos rfl] at hab
          by_cases hxz : x = z
          · subst hxz
            rw [if_pos rfl] at hbc
            rw [if_pos rfl]
            exact ih t u hab hbc
          · rw [if_neg hxz] at hbc
            rw [if_neg hxz]
            exact hbc
        · rw [if_neg hxy, decide_eq_true_eq] at hab
          by_cases hyz : y = z
          · subst hyz
            rw [if_neg hxy]
            simp [hab]
          · rw [if_neg hyz, decide_eq_true_eq] at hbc
            have hxz : x < z := lt_trans hab hbc
            rw [if_neg (ne_of_lt hxz)]
            simp [hxz]

theorem chainIdLe_total : ∀ a b : Str, chainIdLe a b = true ∨ chainIdLe b a = true := by
  intro a b
  by_cases ha : a = kChainId
  · left; simp [chainIdLe, ha]
  · by_cases hb : b = kChainId
    · right; simp [chainIdLe, hb]
    · rcases lexLe_total a b with h | h
      · left; simp [chainIdLe, ha, hb, h]
      · right; simp [chainIdLe, ha, hb, h]

theorem chainIdLe_trans : ∀ a b c : Str,
    chainIdLe a b = true → chainIdLe b c = true → chainIdLe a c = true := by
  intro a b c hab hbc
  by_cases ha : a = kChainId
  · simp [chainIdLe, ha]
  · by_cases hb : b = kChainId
    · simp [chainIdLe, ha, hb] at hab
    · by_cases hc : c = kChainId
      · simp [chainIdLe, hb, hc] at hbc
      · simp only [chainIdLe, if_neg ha, if_neg hb] at hab
        simp only [chainIdLe, if_neg hb, if_neg hc] at hbc
        simp only [chainIdLe, if_neg ha, if_neg hc]
        exact lexLe_trans a b c hab hbc

instance : IsTotal Str chainIdLeP := ⟨chainIdLe_total⟩

instance : IsTrans Str chainIdLeP := ⟨chainIdLe_trans⟩

/-- C9 counterexample: with filters `amount_gt`, `amount_lte` and `zeta`,
the emitted condition list places the `zeta` condition (base field `zeta`)
before the `_and` block holding the two `amount` conditions (base field
`amount`), so the grouped conditions do not appear sorted by base field
name in ascending order as claimed. -/
theorem C9_ordering_counterexample :
    whereConditionsList
        [("amount_gt".data, "100".data), ("amount_lte".data, "1000".data),
         ("zeta".data, "\x22x\x22".data)] [] [] [] =
      .ok [("zeta: \x7b_eq: \x22x\x22\x7d".data),
           ("_and: [\x7bamount: \x7b_gt: 100\x7d\x7d, \x7bamount: \x7b_lte: 1000\x7d\x7d]".data)]
    := by decide

/-- C9 (amended): what the code guarantees about ordering: the single-condition
base fields are emitted in the order of the key list sorted by the
chainId-first/lexicographic comparator (so those are sorted, `chainId` first),
but every multi-condition base field's conditions go into one `_and` block
placed after all single conditions, and nested-parent conditions come last —
the overall list is not sorted by base field name. -/
theorem C9_output_ordering (params : PMap) (ns rs : List Str) (info : FieldInfoMap)
    (cs : List Str) (h : whereConditionsList params ns rs info = .ok cs) :
    ∃ singles ands nested,
      (List.insertionSort chainIdLeP
          ((groupByBase (basicFilterPairs (cleanedFlatFilters params))).map
            Prod.fst)).Sorted chainIdLeP ∧
      (List.insertionSort chainIdLeP
          ((groupByBase (basicFilterPairs (cleanedFlatFilters params))).map Prod.fst)).Perm
        ((groupByBase (basicFilterPairs (cleanedFlatFilters params))).map Prod.fst) ∧
      emitBasicFilters
          (List.insertionSort chainIdLeP
            ((groupByBase (basicFilterPairs (cleanedFlatFilters params))).map Prod.fst))
          (groupByBase (basicFilterPairs (cleanedFlatFilters params))) ns rs =
        .ok (singles, ands) ∧
      cs = (singles ++ (if ands = [] then [] else [fmtAndBlock ands])) ++ nested := by
  simp only [whereConditionsList] at h
  cases hemit : emitBasicFilters
      (List.insertionSort chainIdLeP
        ((groupByBase (basicFilterPairs (cleanedFlatFilters params))).map Prod.fst))
      (groupByBase (basicFilterPairs (cleanedFlatFilters params))) ns rs with
  | error e => rw [hemit] at h; cases h
  | ok p =>
    obtain ⟨singles, ands⟩ := p
    rw [hemit] at h
    dsimp only at h
    cases hnest : (groupNestedFilters (cleanedFlatFilters params)).mapM
        (fun g => process_nested_filters_recursive g.1 g.2 info) with
    | error e => rw [hnest] at h; cases h
    | ok nestedConds =>
      rw [hnest] at h
      dsimp only at h
      cases h
      exact ⟨singles, ands, nestedConds, List.sorted_insertionSort chainIdLeP _,
        List.perm_insertionSort chainIdLeP _, rfl, rfl⟩

/-- C9 witness: three single-condition fields come out `chainId` first, then
`beta`, then `zeta`, with no `_and` block and no nested conditions. -/
theorem C9_output_ordering_witness :
    ∃ singles ands nested,
      (List.insertionSort chainIdLeP
          ((groupByBase (basicFilterPairs (cleanedFlatFilters
            [("zeta".data, "\x22x\x22".data), ("chainId".data, "\x221\x22".data),
             ("beta".data, "\x22y\x22".data)]))).map Prod.fst)).Sorted chainIdLeP ∧
      (List.insertionSort chainIdLeP
          ((groupByBase (basicFilterPairs (cleanedFlatFilters
            [("zeta".data, "\x22x\x22".data), ("chainId".data, "\x221\x22".data),
             ("beta".data, "\x22y\x22".data)]))).map Prod.fst)).Perm
        ((groupByBase (basicFilterPairs (cleanedFlatFilters
            [("zeta".data, "\x22x\x22".data), ("chainId".data, "\x221\x22".data),
             ("beta".data, "\x22y\x22".data)]))).map Prod.fst) ∧
      emitBasicFilters
          (List.insertionSort chainIdLeP
            ((groupByBase (basicFilterPairs (cleanedFlatFilters
              [("zeta".data, "\x22x\x22".data), ("chainId".data, "\x221\x22".data),
               ("beta".data, "\x22y\x22".data)]))).map Prod.fst))
          (groupByBase (basicFilterPairs (cleanedFlatFilters
            [("zeta".data, "\x22x\x22".data), ("chainId".data, "\x221\x22".data),
             ("beta".data, "\x22y\x22".data)]))) [] [] =
        .ok (singles, ands) ∧
      [("chainId: \x7b_eq: \x221\x22\x7d".data), ("beta: \x7b_eq: \x22y\x22\x7d".data),
       ("zeta: \x7b_eq: \x22x\x22\x7d".data)] =
        (singles ++ (if ands = [] then [] else [fmtAndBlock ands])) ++ nested :=
  C9_output_ordering
    [("zeta".data, "\x22x\x22".data), ("chainId".data, "\x221\x22".data),
     ("beta".data, "\x22y\x22".data)] [] [] []
    [("chainId: \x7b_eq: \x221\x22\x7d".data), ("beta: \x7b_eq: \x22y\x22\x7d".data),
     ("zeta: \x7b_eq: \x22x\x22\x7d".data)]
    (by decide)
